import Mathlib

/-!
Verification of the Any_to_Any file-conversion server (`server.js`).

The development shallowly embeds the server's upload / routing / conversion /
cleanup logic: paths are strings, the scratch filesystem is an explicit list of
(path, content) entries threaded through every operation, external tools
(LibreOffice, poppler, the pdf-lib decoders) are oracles describing their
outcome for the request at hand, and JS numbers that reach strings are rendered
in decimal exactly as a template literal renders them.
-/

namespace AnyToAny

/-- Index of the last occurrence of `c` in the list (leftmost position counted
from the head), or `none`. -/
def lastIdxOf (c : Char) : List Char → Option Nat
  | [] => none
  | a :: rest =>
    match lastIdxOf c rest with
    | some i => some (i + 1)
    | none => if a = c then some 0 else none

/-- Decimal digit characters of `n`, most significant first; `fuel` bounds the
recursion (any `fuel > n` suffices, and the result is fuel-independent). -/
def decChars : Nat → Nat → List Char
  | 0, _ => []
  | fuel + 1, n =>
    if n < 10 then [Nat.digitChar n]
    else decChars fuel (n / 10) ++ [Nat.digitChar (n % 10)]

/-- The decimal string of `n`, as a JS template literal renders a number. -/
def natDec (n : Nat) : String := ⟨decChars (n + 1) n⟩

/-- JS `String.prototype.toLowerCase` (character-wise lowering; the inputs the
server compares are ASCII). -/
def toLowerStr (s : String) : String := ⟨s.data.map Char.toLower⟩

/-- JS `String.prototype.trim`: strip leading and trailing whitespace. -/
def trimStr (s : String) : String :=
  ⟨((s.data.dropWhile Char.isWhitespace).reverse.dropWhile Char.isWhitespace).reverse⟩

abbrev Path := String

/-- `true` when `p` lies strictly inside directory `dir`, i.e. `dir ++ "/"` is
an initial segment of `p`. -/
def pathUnder (dir p : Path) : Bool := List.isPrefixOf (dir.data ++ ['/']) p.data

inductive ImgCodec | png | jpg
deriving DecidableEq, Repr

/-- The value `doc.embedPng` / `doc.embedJpg` returns: a decoded image with its
pixel dimensions. -/
structure EmbImage where
  codec : ImgCodec
  width : Nat
  height : Nat
deriving DecidableEq, Repr

/-- One `page.drawImage(image, { x, y, width, height })` call's effect. -/
structure ImgDraw where
  img : EmbImage
  x : Nat
  y : Nat
  w : Nat
  h : Nat
deriving DecidableEq, Repr

structure PdfPage where
  width : Nat
  height : Nat
  draws : List ImgDraw
deriving DecidableEq, Repr

structure PdfDoc where
  pages : List PdfPage
deriving DecidableEq, Repr

/-- Abstract file contents in the scratch areas. -/
inductive FContent
  | dirMark
  | uploadBlob
  | officePdf
  | jpgPage
  | docxFile
  | copyOf (src : Path)
  | pdfOf (doc : PdfDoc)
deriving DecidableEq, Repr

/-- The scratch filesystem: the list of (path, content) entries present. -/
structure FS where
  entries : List (Path × FContent)
deriving DecidableEq, Repr

def FS.empty : FS := ⟨[]⟩

/-- `fs.pathExists` / `fs.existsSync`. -/
def FS.exists? (fs : FS) (p : Path) : Bool := fs.entries.any (fun e => e.1 == p)

/-- Writing a file or creating a directory at `p`. -/
def FS.add (fs : FS) (p : Path) (c : FContent) : FS := ⟨(p, c) :: fs.entries⟩

/-- `fs-extra`'s `remove`: deletes the file or directory at `p`, recursively. -/
def FS.removeP (fs : FS) (p : Path) : FS :=
  ⟨fs.entries.filter (fun e => !(e.1 == p) && !(pathUnder p e.1))⟩

def FS.lookup (fs : FS) (p : Path) : Option FContent :=
  (fs.entries.find? (fun e => e.1 == p)).map (·.2)

/-- `fs-extra`'s `move` with `overwrite: true`. -/
def FS.move (fs : FS) (src dst : Path) : FS :=
  match fs.lookup src with
  | some c => ((fs.removeP src).removeP dst).add dst c
  | none => fs

/-- `p` is present in the filesystem (with some content). -/
def FS.Mem (fs : FS) (p : Path) : Prop := ∃ c, (p, c) ∈ fs.entries

/-- The characters after the last '/' of `s` (the basename portion Node's
`path` functions operate on). -/
def fileTail (s : String) : List Char :=
  match lastIdxOf '/' s.data with
  | none => s.data
  | some i => s.data.drop (i + 1)

/-- Node's `path.extname`: from the last '.' of the basename portion to the
end; empty when there is no '.', or the only '.' leads the basename. -/
def extname (s : String) : String :=
  match lastIdxOf '.' (fileTail s) with
  | none => ""
  | some 0 => ""
  | some (i + 1) => ⟨(fileTail s).drop (i + 1)⟩

/-- Node's `path.basename(s, path.extname s)`: the basename portion with its
extension stripped. -/
def baseNameNoExt (s : String) : String :=
  match lastIdxOf '.' (fileTail s) with
  | none => ⟨fileTail s⟩
  | some 0 => ⟨fileTail s⟩
  | some (i + 1) => ⟨(fileTail s).take (i + 1)⟩

/-- Node's `path.basename` with no suffix stripped (used for the download
filename). -/
def fileBasename (s : String) : String := ⟨fileTail s⟩

/-- `path.join(__dirname, 'uploads')`, the constant `__dirname` prefix elided. -/
def UPLOADS_DIR : Path := "uploads"

/-- `path.join(__dirname, 'outputs')`, the constant `__dirname` prefix elided. -/
def OUTPUTS_DIR : Path := "outputs"

/-- The MIME allow-list of multer's `fileFilter` (server.js 55-62). -/
def allowedMimes : List String :=
  ["application/vnd.openxmlformats-officedocument.wordprocessingml.document",
   "application/vnd.openxmlformats-officedocument.presentationml.presentation",
   "application/vnd.openxmlformats-officedocument.spreadsheetml.sheet",
   "application/pdf",
   "image/jpeg",
   "image/png"]

/-- The `fileSize` ceiling: 20 MiB (server.js 53). -/
def MAX_FILE_SIZE : Nat := 20 * 1024 * 1024

/-- multer `diskStorage.filename` (server.js 43-48): original base name, a
`Date.now()` suffix, then the original extension. -/
def uploadStoredName (originalname : String) (ts : Nat) : String :=
  baseNameNoExt originalname ++ "-" ++ natDec ts ++ extname originalname

def uploadStoredPath (originalname : String) (ts : Nat) : Path :=
  UPLOADS_DIR ++ "/" ++ uploadStoredName originalname ts

/-- One `POST /convert` request as the server sees it. `reqId` is the request's
identity only — two distinct (e.g. concurrent) requests may carry identical
data, in particular equal `Date.now()` readings — and no computation reads it.
`tsUpload` and `tsOut` are the values `Date.now()` returns at the storage-name
call site (server.js 46) and the `outBase` call site (server.js 185). -/
structure ConvertReq where
  reqId : Nat
  hasFile : Bool
  originalname : String
  mimetype : String
  size : Nat
  targetFormatField : Option String
  tsUpload : Nat
  tsOut : Nat
deriving DecidableEq, Repr

/-- Outcome of the LibreOffice subprocess in `pdfToDocx`: it exits cleanly
having produced the output, exits cleanly without output, is not installed
(spawn ENOENT), exceeds the 60 s timeout, or exits with an error. -/
inductive LOExec | okProduced | okNoOutput | enoent | timeout | failed
deriving DecidableEq, Repr

/-- Outcomes of the external tools for one request: the host platform, whether
the `pdf-poppler` library loaded, whether the rasterizer produces the
first-page file, whether `libreoffice-convert` succeeds, the `pdfToDocx`
subprocess outcome, the resolved LibreOffice command, the `Date.now()` reading
for the `lo_` temp directory, and the pixel dimensions the PNG / JPEG decoders
would report (none = decoding fails). -/
structure ToolEnv where
  isLinux : Bool
  popplerAvail : Bool
  raster : Bool
  libreOk : Bool
  loExec : LOExec
  liboCmd : String
  tsTemp : Nat
  png : Option (Nat × Nat)
  jpg : Option (Nat × Nat)
deriving DecidableEq, Repr

/-- One `execFile` invocation: command, arguments, and timeout option. -/
structure ExecCall where
  cmd : String
  args : List String
  timeoutMs : Option Nat
deriving DecidableEq, Repr

/-- `officeToPdf` (server.js 71-77): validate the extension, convert via
LibreOffice, write the returned PDF buffer to `outputPath`. `libreOk` stands
for the external converter's outcome. -/
def officeToPdf (libreOk : Bool) (inputPath outputPath : Path) (fs : FS) :
    Except String Unit × FS :=
  let ext := toLowerStr (extname inputPath)
  if !([".docx", ".pptx", ".xlsx"].contains ext) then
    (.error ("Unsupported office format: " ++ ext), fs)
  else if libreOk then (.ok (), fs.add outputPath .officePdf)
  else (.error "libreoffice-convert failed", fs)

/-- poppler's naming convention, shared by `pdftoppm` and the `pdf-poppler`
wrapper: the first page of a JPEG rasterization with filename prefix `pfx`
lands in `pfx ++ "-1.jpg"`. -/
def firstPageName (pfx : Path) : Path := pfx ++ "-1.jpg"

/-- `pdfToJpg` (server.js 80-101): ensure the output directory, then rasterize
the first page via `pdftoppm` on Linux, via the `pdf-poppler` wrapper when that
library loaded, and fail as unavailable otherwise; after the tool returns,
check for `page-1.jpg`. `produces` stands for the rasterizer's outcome (whether
the first-page file appears). Also returns the external invocations made. -/
def pdfToJpg (isLinux popplerAvail produces : Bool) (inputPath outputDir : Path)
    (fs : FS) : Except String Path × FS × List ExecCall :=
  let fs1 := fs.add outputDir .dirMark
  let pfxP : Path := outputDir ++ "/" ++ "page"
  if isLinux then
    let call : ExecCall :=
      ⟨"pdftoppm", ["-jpeg", "-f", "1", "-l", "1", inputPath, pfxP], none⟩
    let fs2 := if produces then fs1.add (firstPageName pfxP) .jpgPage else fs1
    let firstPage : Path := outputDir ++ "/" ++ "page-1.jpg"
    if fs2.exists? firstPage then (.ok firstPage, fs2, [call])
    else (.error "PDF to JPG conversion produced no output.", fs2, [call])
  else if popplerAvail then
    let call : ExecCall :=
      ⟨"pdf-poppler convert",
       [inputPath, "format=jpeg", "out_dir=" ++ outputDir, "out_prefix=page", "page=1"], none⟩
    let fs2 := if produces then fs1.add (firstPageName (outputDir ++ "/" ++ "page")) .jpgPage else fs1
    let firstPage : Path := outputDir ++ "/" ++ "page-1.jpg"
    if fs2.exists? firstPage then (.ok firstPage, fs2, [call])
    else (.error "PDF to JPG conversion produced no output.", fs2, [call])
  else
    (.error "PDF to JPG not available on this system. Install poppler-utils (Linux) or use Windows/Mac.",
     fs1, [])

/-- The `lo_${Date.now()}` temporary working directory of `pdfToDocx`
(server.js 124). -/
def loTempDir (ts : Nat) : Path := OUTPUTS_DIR ++ "/" ++ "lo_" ++ natDec ts

/-- `pdfToDocx` (server.js 121-148): ensure the output directory, copy the
input into a fresh temp directory, run LibreOffice headless with the
`writer_pdf_import` filter and a 60000 ms timeout, check that `in.docx`
appeared, move it to the final output path, and always remove the temp
directory (the `finally`). `exec` stands for the subprocess outcome. -/
def pdfToDocx (exec : LOExec) (liboCmd : String) (inputPath outputDir : Path)
    (ts : Nat) (fs : FS) : Except String Path × FS × List ExecCall :=
  let fs1 := fs.add outputDir .dirMark
  let baseName := baseNameNoExt inputPath
  let tempDir := loTempDir ts
  let fs2 := fs1.add tempDir .dirMark
  let tempPdf := tempDir ++ "/" ++ "in.pdf"
  let tempDocx := tempDir ++ "/" ++ "in.docx"
  let fs3 := fs2.add tempPdf (.copyOf inputPath)
  let call : ExecCall :=
    ⟨liboCmd,
     ["--headless", "--infilter=writer_pdf_import", "--convert-to", "docx", "--outdir", tempDir, tempPdf],
     some 60000⟩
  let execRes : Except String Unit :=
    match exec with
    | .okProduced => .ok ()
    | .okNoOutput => .ok ()
    | .enoent => .error "spawn ENOENT"
    | .timeout => .error "ETIMEDOUT"
    | .failed => .error "LibreOffice exited with an error"
  match execRes with
  | .error m => (.error m, fs3.removeP tempDir, [call])
  | .ok _ =>
    let fs4 := if exec = .okProduced then fs3.add tempDocx .docxFile else fs3
    if fs4.exists? tempDocx then
      let docxPath := outputDir ++ "/" ++ baseName ++ ".docx"
      (.ok docxPath, (fs4.move tempDocx docxPath).removeP tempDir, [call])
    else
      (.error "PDF to DOCX produced no output. Is LibreOffice installed?",
       fs4.removeP tempDir, [call])

/-- `imageToPdf` (server.js 151-164): read the image, create a pdf-lib
document, embed with the PNG codec when the lower-cased extension is `.png`
and the JPEG codec otherwise, add one page of the image's pixel size, draw the
image at (0,0) at full width and height, serialize and write the bytes to
`outputPath`. `png` / `jpgDec` stand for the decoders' results. -/
def imageToPdf (png jpgDec : Option (Nat × Nat)) (inputPath outputPath : Path)
    (fs : FS) : Except String PdfDoc × FS :=
  let ext := toLowerStr (extname inputPath)
  let doc0 : PdfDoc := ⟨[]⟩
  let image? : Option EmbImage :=
    if ext = ".png" then png.map (fun wh => ⟨.png, wh.1, wh.2⟩)
    else jpgDec.map (fun wh => ⟨.jpg, wh.1, wh.2⟩)
  match image? with
  | none => (.error "could not embed the image", fs)
  | some image =>
    let width := image.width
    let height := image.height
    let page : PdfPage := ⟨width, height, [⟨image, 0, 0, width, height⟩]⟩
    let doc : PdfDoc := ⟨doc0.pages ++ [page]⟩
    (.ok doc, fs.add outputPath (.pdfOf doc))

/-- An HTTP response at the granularity the claims need: the handler's JSON
error bodies, a file download (HTTP 200), or the framework's HTML error page. -/
inductive Response
  | json (status : Nat) (error : String)
  | download (path : Path) (filename : String)
  | htmlError (status : Nat)
deriving DecidableEq, Repr

def Response.statusCode : Response → Nat
  | .json s _ => s
  | .download _ _ => 200
  | .htmlError s => s

def Response.isJsonError : Response → Bool
  | .json _ _ => true
  | _ => false

/-- Result of the `upload.single('file')` middleware for the handler. -/
inductive MulterOutcome
  | noFile
  | rejected (errMsg : String)
  | stored (p : Path)
deriving DecidableEq, Repr

/-- The `upload.single('file')` middleware (server.js 41-66): no file field
leaves `req.file` unset; a disallowed MIME type is refused by `fileFilter`; a
body over the 20 MiB `fileSize` limit is refused (multer removes the partial
file); otherwise the file is persisted under the time-suffixed name. -/
def multerStage (r : ConvertReq) (fs : FS) : MulterOutcome × FS :=
  if !r.hasFile then (.noFile, fs)
  else if !(allowedMimes.contains r.mimetype) then
    (.rejected "File type not supported. Use DOCX, PPTX, XLSX, PDF, JPG, or PNG.", fs)
  else if MAX_FILE_SIZE < r.size then (.rejected "File too large", fs)
  else
    let p := uploadStoredPath r.originalname r.tsUpload
    (.stored p, fs.add p .uploadBlob)

/-- Express's built-in final error handler. server.js registers no
error-handling middleware, so an error passed to `next` by the upload
middleware (multer's `fileFilter` rejection or its `LIMIT_FILE_SIZE` error,
both plain `Error`s carrying no `status` / `statusCode` field) reaches
Express's documented default handler, which responds with status 500 and an
HTML error page — not the JSON error body the route handler sends. -/
def expressDefaultErrorResponse (_errMsg : String) : Response := .htmlError 500

/-- The guarded best-effort deletions of server.js 211-214 (the download
callback) and 221-224 (the catch): upload file, output file, output directory,
each removed when present. -/
def cleanupArtifacts (uploadPath : Path) (outputPath? outDir? : Option Path)
    (fs : FS) : FS :=
  let fs1 := if fs.exists? uploadPath then fs.removeP uploadPath else fs
  let fs2 :=
    match outputPath? with
    | some p => if fs1.exists? p then fs1.removeP p else fs1
    | none => fs1
  match outDir? with
  | some d => if fs2.exists? d then fs2.removeP d else fs2
  | none => fs2

/-- The four conversion operations the router can dispatch to. -/
inductive OpName | office | pdf2jpg | pdf2docx | img2pdf
deriving DecidableEq, Repr

/-- `(req.body.targetFormat || '').toLowerCase().trim()` (server.js 177). -/
def normalizeTarget (tf : Option String) : String := trimStr (toLowerStr (tf.getD ""))

/-- The route conditions of the handler's if-chain (server.js 188-206), in
order, as a mapping from the lower-cased source extension and the normalized
target format to the conversion operation. -/
def routeConversion (ext targetFormat : String) : Option OpName :=
  if [".docx", ".pptx", ".xlsx"].contains ext && targetFormat == "pdf" then some .office
  else if ext == ".pdf" && targetFormat == "jpg" then some .pdf2jpg
  else if ext == ".pdf" && targetFormat == "docx" then some .pdf2docx
  else if [".jpg", ".jpeg", ".png"].contains ext && targetFormat == "pdf" then some .img2pdf
  else none

/-- The spec's Compatibility Table, as (source extension, target format)
pairs (extensions carry their leading dot, as the code compares them). -/
def compatTable : List (String × String) :=
  [(".docx", "pdf"), (".pptx", "pdf"), (".xlsx", "pdf"),
   (".pdf", "jpg"), (".pdf", "docx"),
   (".jpg", "pdf"), (".jpeg", "pdf"), (".png", "pdf")]

/-- The `POST /convert` route handler (server.js 167-232), the if-chain of
188-206 factored through `routeConversion` (identical conditions, in order).
Returns the response, the final filesystem — after the download callback's
cleanup on success, or the catch's cleanup when a conversion throws — and the
list of conversion operations invoked. On a conversion failure the cleanup
sees the JS variables as they are at the catch: `outputPath` is still null in
the pdf-to-jpg and pdf-to-docx branches (it is assigned only after the await
returns), and already set in the office and image branches. -/
def convertHandler (env : ToolEnv) (r : ConvertReq) (file? : Option Path)
    (fs : FS) : Response × FS × List OpName :=
  match file? with
  | none => (.json 400 "No file uploaded.", fs, [])
  | some uploadPath =>
    let targetFormat := normalizeTarget r.targetFormatField
    if targetFormat = "" then
      (.json 400 "targetFormat is required (pdf, jpg, or docx).", fs, [])
    else
      let ext := toLowerStr (extname r.originalname)
      let baseName := baseNameNoExt r.originalname
      let outBase := OUTPUTS_DIR ++ "/" ++ baseName ++ "-" ++ natDec r.tsOut
      match routeConversion ext targetFormat with
      | some .office =>
        let outputPath := outBase ++ ".pdf"
        match officeToPdf env.libreOk uploadPath outputPath fs with
        | (.ok _, fs1) =>
          (.download outputPath (fileBasename outputPath),
           cleanupArtifacts uploadPath (some outputPath) none fs1, [.office])
        | (.error m, fs1) =>
          (.json 500 m, cleanupArtifacts uploadPath (some outputPath) none fs1, [.office])
      | some .pdf2jpg =>
        let outputDirForPdf := outBase ++ "-pages"
        let fsD := fs.add outputDirForPdf .dirMark
        match pdfToJpg env.isLinux env.popplerAvail env.raster uploadPath outputDirForPdf fsD with
        | (.ok firstPagePath, fs1, _) =>
          (.download firstPagePath (fileBasename firstPagePath),
           cleanupArtifacts uploadPath (some firstPagePath) (some outputDirForPdf) fs1, [.pdf2jpg])
        | (.error m, fs1, _) =>
          (.json 500 m, cleanupArtifacts uploadPath none (some outputDirForPdf) fs1, [.pdf2jpg])
      | some .pdf2docx =>
        let outputDirForPdf := outBase ++ "-docx"
        match pdfToDocx env.loExec env.liboCmd uploadPath outputDirForPdf env.tsTemp fs with
        | (.ok docxPath, fs1, _) =>
          (.download docxPath (fileBasename docxPath),
           cleanupArtifacts uploadPath (some docxPath) (some outputDirForPdf) fs1, [.pdf2docx])
        | (.error m, fs1, _) =>
          (.json 500 m, cleanupArtifacts uploadPath none (some outputDirForPdf) fs1, [.pdf2docx])
      | some .img2pdf =>
        let outputPath := outBase ++ ".pdf"
        match imageToPdf env.png env.jpg uploadPath outputPath fs with
        | (.ok _, fs1) =>
          (.download outputPath (fileBasename outputPath),
           cleanupArtifacts uploadPath (some outputPath) none fs1, [.img2pdf])
        | (.error m, fs1) =>
          (.json 500 m, cleanupArtifacts uploadPath (some outputPath) none fs1, [.img2pdf])
      | none =>
        (.json 400 ("Unsupported conversion: " ++ ext ++ " -> " ++ targetFormat ++
          ". Supported: DOCX/PPTX/XLSX to PDF, PDF to JPG/DOCX, JPG/PNG to PDF."), fs, [])

/-- The full `POST /convert` pipeline: the multer middleware, then the route
handler; a multer error bypasses the handler and reaches Express's default
error handler (no error-handling middleware exists in server.js). -/
def convertPipeline (env : ToolEnv) (r : ConvertReq) (fs : FS) :
    Response × FS × List OpName :=
  match multerStage r fs with
  | (.rejected m, fs1) => (expressDefaultErrorResponse m, fs1, [])
  | (.noFile, fs1) => convertHandler env r none fs1
  | (.stored p, fs1) => convertHandler env r (some p) fs1

/-- The upload path computed for a request. -/
def reqUploadPath (r : ConvertReq) : Path := uploadStoredPath r.originalname r.tsUpload

/-- The `outBase` output-path stem computed for a request (server.js 185). -/
def reqOutBase (r : ConvertReq) : Path :=
  OUTPUTS_DIR ++ "/" ++ baseNameNoExt r.originalname ++ "-" ++ natDec r.tsOut

/-- Whether the conversion operation dispatched for lower-cased extension
`ext` succeeds under `env`. -/
def toolOk (env : ToolEnv) (ext : String) : OpName → Bool
  | .office => env.libreOk
  | .pdf2jpg => (env.isLinux || env.popplerAvail) && env.raster
  | .pdf2docx => env.loExec == .okProduced
  | .img2pdf => if ext == ".png" then env.png.isSome else env.jpg.isSome

/-- `app.listen`'s outcome at one port: `none` = listening succeeded,
`some .addrInUse` = `EADDRINUSE`, `some .other` = any other listen error. -/
inductive ListenErr | addrInUse | other
deriving DecidableEq, Repr

/-- `maxTries` (server.js 245): a JS number literal. -/
def maxTries : Nat := 5

/-- A JavaScript value of the two runtime types `PORT` can hold:
`process.env.PORT` is always a string when set, the fallback 3000 is a
number. -/
inductive JsVal
  | num (n : Nat)
  | str (s : String)
deriving DecidableEq, Repr

/-- `const PORT = process.env.PORT || 3000` (server.js 28): the string from
the environment when set and non-empty (the empty string is falsy), the
number 3000 otherwise. -/
def jsPORT (envPort : Option String) : JsVal :=
  match envPort with
  | some s => if s = "" then .num 3000 else .str s
  | none => .num 3000

/-- JS `+` with a number on the right: numeric addition on a number, string
concatenation of the number's decimal rendering on a string —
`"3000" + 5 = "30005"` and `"3000" + 1 = "30001"` (server.js 255-256). -/
def jsAddNat : JsVal → Nat → JsVal
  | .num m, k => .num (m + k)
  | .str s, k => .str (s ++ natDec k)

/-- JS `<` on two strings: lexicographic comparison by code unit. -/
def strLtLex : List Char → List Char → Bool
  | [], [] => false
  | [], _ :: _ => true
  | _ :: _, [] => false
  | a :: as, b :: bs =>
    if a.toNat < b.toNat then true
    else if b.toNat < a.toNat then false
    else strLtLex as bs

/-- Decimal value of a digit string, most significant digit first. -/
def decValAux : List Char → Nat → Nat
  | [], acc => acc
  | c :: cs, acc => decValAux cs (10 * acc + (c.toNat - 48))

/-- The digit-string fragment of JS `ToNumber`: a string of decimal digits is
its decimal value, and the empty string is 0, as in JS; every other string is
treated as NaN (`none`) — signs, whitespace, decimal points, exponents and
hex forms are outside this model's scope. -/
def toNumber? (s : String) : Option Nat :=
  if s.data.all Char.isDigit then some (decValAux s.data 0) else none

/-- JS `<` (server.js 255): numeric on two numbers, lexicographic on two
strings; a mixed comparison converts the string with `ToNumber` (NaN compares
false). Only the same-kind cases are reachable from `start`, since the
attempt value keeps `PORT`'s type under `jsAddNat`. -/
def jsLt : JsVal → JsVal → Bool
  | .num a, .num b => decide (a < b)
  | .str a, .str b => strLtLex a.data b.data
  | .num a, .str b =>
    match toNumber? b with
    | some n => decide (a < n)
    | none => false
  | .str a, .num b =>
    match toNumber? a with
    | some n => decide (n < b)
    | none => false

/-- Node's port coercion in `server.listen`: a number or numeric string whose
value is at most 65535 is a port; an out-of-range value throws
`ERR_SOCKET_BAD_PORT`, which rejects the promise. A non-numeric string (a
pipe name to Node) is outside this model's scope and folded into the same
rejection. -/
def portNum? : JsVal → Option Nat
  | .num n => if n ≤ 65535 then some n else none
  | .str s =>
    match toNumber? s with
    | some n => if n ≤ 65535 then some n else none
    | none => none

/-- Result of the `tryListen` recursion: listening on numeric port `n`, the
promise rejected (a non-`EADDRINUSE` error, the guard stopping the retries,
or a bad port value), or the model's fuel exhausted — a state of the model
only, proven unreachable from `start`'s configurations. -/
inductive TryResult
  | ok (n : Nat)
  | rejected
  | spinning
deriving DecidableEq, Repr

/-- One `tryListen` promise executor (server.js 249-261) at attempt value
`p`: `.inl` resolves or rejects, `.inr` is the `tryListen(p + 1)` retry,
taken on `EADDRINUSE` while `p < PORT + maxTries` — with JS `+` and `<`, so
concatenation and lexicographic comparison when `PORT` is a string. -/
def tryStep (listen : Nat → Option ListenErr) (PORT p : JsVal) :
    TryResult ⊕ JsVal :=
  match portNum? p with
  | none => .inl .rejected
  | some n =>
    match listen n with
    | none => .inl (.ok n)
    | some .other => .inl .rejected
    | some .addrInUse =>
      if jsLt p (jsAddNat PORT maxTries) then .inr (jsAddNat p 1)
      else .inl .rejected

/-- The retry recursion of `tryListen` (server.js 248-262), with fuel. -/
def tryListenJs (listen : Nat → Option ListenErr) (PORT : JsVal) :
    Nat → JsVal → TryResult
  | 0, p =>
    match tryStep listen PORT p with
    | .inl r => r
    | .inr _ => .spinning
  | fuel + 1, p =>
    match tryStep listen PORT p with
    | .inl r => r
    | .inr p1 => tryListenJs listen PORT fuel p1

/-- Fuel covering every configuration reachable from `start` (the no-spin
lemmas below). -/
def startFuel : Nat := 7

inductive StartOutcome
  | running (port : Nat)
  | exited (code : Nat)
deriving DecidableEq, Repr

/-- `start()` with the top-level `.catch` that exits the process with code 1
(server.js 243-270): `let port = PORT; await tryListen(port)`. -/
def startJs (listen : Nat → Option ListenErr) (envPort : Option String) :
    StartOutcome :=
  match tryListenJs listen (jsPORT envPort) startFuel (jsPORT envPort) with
  | .ok n => .running n
  | .rejected => .exited 1
  | .spinning => .exited 1


/-- What the route handler guarantees for a dispatched conversion operation
`op` whose success is `ok`: exactly that operation is invoked; a failing
conversion yields a JSON 500 error and an empty scratch state; a successful
conversion yields a file download and an empty scratch state. -/
def BranchSpec (P : Response × FS × List OpName) (op : OpName) (ok : Bool) : Prop :=
  P.2.2 = [op]
  ∧ (ok = false → P.1.statusCode = 500 ∧ P.1.isJsonError = true ∧ ∀ q, ¬ P.2.1.Mem q)
  ∧ (ok = true → (∃ pth f, P.1 = .download pth f) ∧ ∀ q, ¬ P.2.1.Mem q)

/-- The codec `imageToPdf` picks: PNG exactly for a lower-cased `.png`
extension, JPEG otherwise. -/
def imgCodecFor (inputPath : Path) : ImgCodec :=
  if toLowerStr (extname inputPath) = ".png" then .png else .jpg

/-- The one-page document `imageToPdf` builds for an image of pixel size
`w` by `h`. -/
def imgDocFor (inputPath : Path) (w h : Nat) : PdfDoc :=
  ⟨[⟨w, h, [⟨⟨imgCodecFor inputPath, w, h⟩, 0, 0, w, h⟩]⟩]⟩

/-! ## Toolkit: runs of characters around a separator -/

theorem takeWhile_append_stop (p : Char → Bool) (l : List Char) (b : Char) (m : List Char)
    (hl : ∀ c ∈ l, p c = true) (hb : p b = false) : (l ++ b :: m).takeWhile p = l := by
  induction l with
  | nil => simp [List.takeWhile_cons, hb]
  | cons a l ih =>
    have ha : p a = true := hl a (by simp)
    simp [List.takeWhile_cons, ha]
    exact ih (fun c hc => hl c (by simp [hc]))

/-- Splitting at a separator character `s` that the run predicate `p` rejects:
when both sides of an equality have the form (run satisfying `p`) ++ `s` ::
rest, the runs and the rests agree. -/
theorem sep_split_eq (p : Char → Bool) {s : Char} {A B r v : List Char}
    (hs : p s = false) (hA : ∀ c ∈ A, p c = true) (hB : ∀ c ∈ B, p c = true)
    (h : A ++ s :: r = B ++ s :: v) : A = B ∧ r = v := by
  have hA' := takeWhile_append_stop p A s r hA hs
  have hB' := takeWhile_append_stop p B s v hB hs
  have hAB : A = B := by rw [← hA', ← hB', h]
  refine ⟨hAB, ?_⟩
  subst hAB
  have h2 := List.append_cancel_left h
  simpa using h2

/-! ## Toolkit: decimal rendering of numbers -/

theorem digitChar_isDigit : ∀ d, d < 10 → (Nat.digitChar d).isDigit = true := by decide

theorem digitChar_inj10 :
    ∀ d1, d1 < 10 → ∀ d2, d2 < 10 → Nat.digitChar d1 = Nat.digitChar d2 → d1 = d2 := by decide

theorem decChars_fuel : ∀ f g n, n < f → n < g → decChars f n = decChars g n := by
  intro f
  induction f with
  | zero => intro g n h _; exact absurd h (Nat.not_lt_zero n)
  | succ f ih =>
    intro g n hf hg
    match g, hg with
    | g + 1, _ =>
      by_cases h10 : n < 10
      · simp [decChars, h10]
      · have hd : n / 10 < n := Nat.div_lt_self (by omega) (by omega)
        simp only [decChars, h10, if_false]
        rw [ih g (n / 10) (by omega) (by omega)]

theorem decChars_ne_nil : ∀ f n, n < f → decChars f n ≠ [] := by
  intro f n h
  match f, h with
  | f + 1, _ =>
    by_cases h10 : n < 10 <;> simp [decChars, h10]

theorem decChars_digits : ∀ f n, n < f → ∀ c ∈ decChars f n, c.isDigit = true := by
  intro f
  induction f with
  | zero => intro n h; omega
  | succ f ih =>
    intro n hf c hc
    by_cases h10 : n < 10
    · simp [decChars, h10] at hc
      subst hc
      exact digitChar_isDigit n h10
    · simp only [decChars, h10, if_false, List.mem_append, List.mem_singleton] at hc
      rcases hc with hc | hc
      · have hd : n / 10 < n := Nat.div_lt_self (by omega) (by omega)
        exact ih (n / 10) (by omega) c hc
      · subst hc
        exact digitChar_isDigit (n % 10) (Nat.mod_lt n (by omega))

theorem decChars_inj : ∀ a b, decChars (a + 1) a = decChars (b + 1) b → a = b := by
  intro a
  induction a using Nat.strong_induction_on with
  | _ a ih =>
    intro b h
    by_cases ha : a < 10 <;> by_cases hb : b < 10
    · simp [decChars, ha, hb] at h
      exact digitChar_inj10 a ha b hb h
    · exfalso
      simp only [decChars, ha, hb, if_true, if_false] at h
      have hd : b / 10 < b := Nat.div_lt_self (by omega) (by omega)
      apply decChars_ne_nil b (b / 10) hd
      have hlen := congrArg List.length h
      simp only [List.length_singleton, List.length_append, List.length_cons,
        List.length_nil] at hlen
      exact List.eq_nil_of_length_eq_zero (by omega)
    · exfalso
      simp only [decChars, ha, hb, if_true, if_false] at h
      have hd : a / 10 < a := Nat.div_lt_self (by omega) (by omega)
      apply decChars_ne_nil a (a / 10) hd
      have hlen := congrArg List.length h
      simp only [List.length_singleton, List.length_append, List.length_cons,
        List.length_nil] at hlen
      exact List.eq_nil_of_length_eq_zero (by omega)
    · simp only [decChars, ha, hb, if_false] at h
      have h2 := congrArg List.reverse h
      simp at h2
      obtain ⟨hmod, hrev⟩ := h2
      have hreq : a % 10 = b % 10 :=
        digitChar_inj10 _ (Nat.mod_lt a (by omega)) _ (Nat.mod_lt b (by omega)) hmod
      have hda : a / 10 < a := Nat.div_lt_self (by omega) (by omega)
      have hdb : b / 10 < b := Nat.div_lt_self (by omega) (by omega)
      have hfa : decChars a (a / 10) = decChars (a / 10 + 1) (a / 10) :=
        decChars_fuel a (a / 10 + 1) (a / 10) hda (by omega)
      have hfb : decChars b (b / 10) = decChars (b / 10 + 1) (b / 10) :=
        decChars_fuel b (b / 10 + 1) (b / 10) hdb (by omega)
      have hdiv : a / 10 = b / 10 := by
        apply ih (a / 10) hda
        rw [← hfa, ← hfb]
        exact hrev
      omega

theorem natDec_inj {a b : Nat} (h : natDec a = natDec b) : a = b := by
  have hd : decChars (a + 1) a = decChars (b + 1) b := congrArg String.data h
  exact decChars_inj a b hd

theorem natDec_data : (natDec n).data = decChars (n + 1) n := rfl

theorem natDec_digits {n : Nat} : ∀ c ∈ (natDec n).data, c.isDigit = true :=
  decChars_digits (n + 1) n (Nat.lt_succ_self n)

theorem natDec_ne_nil {n : Nat} : (natDec n).data ≠ [] :=
  decChars_ne_nil (n + 1) n (Nat.lt_succ_self n)

theorem isDigit_beq_false {c d : Char} (hd : d.isDigit = false) (hc : c.isDigit = true) :
    (c == d) = false := by
  cases h : (c == d)
  · rfl
  · exfalso
    rw [eq_of_beq h, hd] at hc
    exact Bool.noConfusion hc

theorem isDigit_ne {c d : Char} (hd : d.isDigit = false) (hc : c.isDigit = true) : c ≠ d := by
  intro he; subst he; rw [hc] at hd; exact Bool.noConfusion hd

/-! ## Toolkit: last occurrence of a character, and Node path splitting -/

theorem lastIdxOf_eq_none_iff {c : Char} : ∀ {l : List Char}, lastIdxOf c l = none ↔ c ∉ l := by
  intro l
  induction l with
  | nil => simp [lastIdxOf]
  | cons a rest ih =>
    simp only [lastIdxOf]
    cases h : lastIdxOf c rest with
    | some i =>
      have hc : c ∈ rest := by
        by_contra hno
        rw [ih.mpr hno] at h
        exact Option.noConfusion h
      simp [hc]
    | none =>
      by_cases hac : a = c
      · subst hac
        simp
      · simp [hac, ih.mp h]
        exact fun he => hac he.symm

theorem lastIdxOf_drop {c : Char} :
    ∀ {l : List Char} {i : Nat}, lastIdxOf c l = some i → ∃ t, l.drop i = c :: t ∧ c ∉ t := by
  intro l
  induction l with
  | nil => intro i h; exact Option.noConfusion h
  | cons a rest ih =>
    intro i h
    simp only [lastIdxOf] at h
    cases hr : lastIdxOf c rest with
    | some j =>
      rw [hr] at h
      have hij : j + 1 = i := by injection h
      subst hij
      obtain ⟨t, ht, hnt⟩ := ih hr
      exact ⟨t, by simpa using ht, hnt⟩
    | none =>
      rw [hr] at h
      by_cases hac : a = c
      · rw [if_pos hac] at h
        have h0 : (0 : Nat) = i := by injection h
        subst h0
        subst hac
        exact ⟨rest, by simp, lastIdxOf_eq_none_iff.mp hr⟩
      · rw [if_neg hac] at h
        exact Option.noConfusion h

theorem lastIdxOf_append_none {c : Char} :
    ∀ (l : List Char) {m : List Char}, lastIdxOf c m = none →
      lastIdxOf c (l ++ m) = lastIdxOf c l := by
  intro l
  induction l with
  | nil => intro m h; simpa using h
  | cons a rest ih =>
    intro m h
    show lastIdxOf c (a :: (rest ++ m)) = lastIdxOf c (a :: rest)
    simp only [lastIdxOf]
    rw [ih h]

theorem lastIdxOf_append_sep (c : Char) :
    ∀ (X tl : List Char), c ∉ tl → lastIdxOf c (X ++ c :: tl) = some X.length := by
  intro X
  induction X with
  | nil =>
    intro tl h
    simp [lastIdxOf, lastIdxOf_eq_none_iff.mpr h]
  | cons x X ih =>
    intro tl h
    show lastIdxOf c (x :: (X ++ c :: tl)) = some (X.length + 1)
    simp only [lastIdxOf]
    rw [ih tl h]

theorem fileTail_of_none {s : String} (h : lastIdxOf '/' s.data = none) :
    fileTail s = s.data := by
  unfold fileTail
  rw [h]

theorem fileTail_of_some {s : String} {i : Nat} (h : lastIdxOf '/' s.data = some i) :
    fileTail s = s.data.drop (i + 1) := by
  unfold fileTail
  rw [h]

theorem extname_of_none {s : String} (h : lastIdxOf '.' (fileTail s) = none) :
    extname s = "" := by
  unfold extname
  rw [h]

theorem extname_of_zero {s : String} (h : lastIdxOf '.' (fileTail s) = some 0) :
    extname s = "" := by
  unfold extname
  rw [h]

theorem extname_of_succ {s : String} {j : Nat} (h : lastIdxOf '.' (fileTail s) = some (j + 1)) :
    extname s = ⟨(fileTail s).drop (j + 1)⟩ := by
  unfold extname
  rw [h]

theorem baseNameNoExt_of_none {s : String} (h : lastIdxOf '.' (fileTail s) = none) :
    baseNameNoExt s = ⟨fileTail s⟩ := by
  unfold baseNameNoExt
  rw [h]

theorem baseNameNoExt_of_zero {s : String} (h : lastIdxOf '.' (fileTail s) = some 0) :
    baseNameNoExt s = ⟨fileTail s⟩ := by
  unfold baseNameNoExt
  rw [h]

theorem baseNameNoExt_of_succ {s : String} {j : Nat}
    (h : lastIdxOf '.' (fileTail s) = some (j + 1)) :
    baseNameNoExt s = ⟨(fileTail s).take (j + 1)⟩ := by
  unfold baseNameNoExt
  rw [h]

theorem fileTail_no_slash (s : String) : '/' ∉ fileTail s := by
  cases h : lastIdxOf '/' s.data with
  | none =>
    rw [fileTail_of_none h]
    exact lastIdxOf_eq_none_iff.mp h
  | some i =>
    rw [fileTail_of_some h]
    obtain ⟨t, ht, hnt⟩ := lastIdxOf_drop h
    have h2 : s.data.drop (i + 1) = t := by
      have h3 := congrArg (List.drop 1) ht
      rw [List.drop_drop] at h3
      simp only [List.drop_succ_cons, List.drop_zero] at h3
      exact h3
    rw [h2]
    exact hnt

theorem base_append_ext (s : String) :
    (baseNameNoExt s).data ++ (extname s).data = fileTail s := by
  cases h : lastIdxOf '.' (fileTail s) with
  | none => rw [baseNameNoExt_of_none h, extname_of_none h]; simp
  | some i =>
    cases i with
    | zero => rw [baseNameNoExt_of_zero h, extname_of_zero h]; simp
    | succ j =>
      rw [baseNameNoExt_of_succ h, extname_of_succ h]
      exact List.take_append_drop (j + 1) (fileTail s)

/-- The extension is empty, or a dot followed by dot-free characters. -/
theorem ext_cases (s : String) :
    (extname s).data = [] ∨ ∃ tl, (extname s).data = '.' :: tl ∧ '.' ∉ tl := by
  cases h : lastIdxOf '.' (fileTail s) with
  | none => left; rw [extname_of_none h]
  | some i =>
    cases i with
    | zero => left; rw [extname_of_zero h]
    | succ j =>
      right
      obtain ⟨t, ht, hnt⟩ := lastIdxOf_drop h
      rw [extname_of_succ h]
      exact ⟨t, ht, hnt⟩

/-- When the extension is empty the base is the whole basename portion with a
dot at most in first position. -/
theorem ext_empty_base (s : String) (h : (extname s).data = []) :
    (baseNameNoExt s).data = fileTail s ∧
      ('.' ∉ (baseNameNoExt s).data ∨
        ∃ tl, (baseNameNoExt s).data = '.' :: tl ∧ '.' ∉ tl) := by
  cases hl : lastIdxOf '.' (fileTail s) with
  | none =>
    rw [baseNameNoExt_of_none hl]
    exact ⟨rfl, Or.inl (lastIdxOf_eq_none_iff.mp hl)⟩
  | some i =>
    cases i with
    | zero =>
      rw [baseNameNoExt_of_zero hl]
      refine ⟨rfl, Or.inr ?_⟩
      obtain ⟨t, ht, hnt⟩ := lastIdxOf_drop hl
      simp only [List.drop_zero] at ht
      exact ⟨t, ht, hnt⟩
    | succ j =>
      exfalso
      rw [extname_of_succ hl] at h
      obtain ⟨t, ht, _⟩ := lastIdxOf_drop hl
      have h2 : (fileTail s).drop (j + 1) = [] := h
      rw [h2] at ht
      exact List.noConfusion ht


/-! ## Structure of the time-suffixed scratch names -/

theorem uploadStoredName_data (n : String) (ts : Nat) :
    (uploadStoredName n ts).data =
      (baseNameNoExt n).data ++ '-' :: ((natDec ts).data ++ (extname n).data) := by
  unfold uploadStoredName
  have hdash : ("-" : String).data = ['-'] := rfl
  simp [String.data_append, hdash, List.append_assoc]

theorem uploadStoredPath_data (n : String) (ts : Nat) :
    (uploadStoredPath n ts).data = "uploads/".data ++ (uploadStoredName n ts).data := by
  unfold uploadStoredPath UPLOADS_DIR
  have hs : ("/" : String).data = ['/'] := rfl
  simp [String.data_append, hs, List.append_assoc]

theorem reqOutBase_data (r : ConvertReq) :
    (reqOutBase r).data =
      ("outputs/".data ++ (baseNameNoExt r.originalname).data) ++ '-' :: (natDec r.tsOut).data := by
  unfold reqOutBase OUTPUTS_DIR
  have hdash : ("-" : String).data = ['-'] := rfl
  have hs : ("/" : String).data = ['/'] := rfl
  simp [String.data_append, hdash, hs, List.append_assoc]

theorem reverse_shape_plain {b D : List Char} :
    (b ++ '-' :: D).reverse = D.reverse ++ '-' :: b.reverse := by
  simp [List.reverse_append, List.reverse_cons, List.append_assoc]

theorem reverse_shape_dotted {b D tl : List Char} :
    (b ++ '-' :: (D ++ '.' :: tl)).reverse
      = tl.reverse ++ '.' :: (D.reverse ++ '-' :: b.reverse) := by
  simp [List.reverse_append, List.reverse_cons, List.append_assoc]

theorem run_notDot {l : List Char} (h : '.' ∉ l) : ∀ c ∈ l, (!(c == '.')) = true := by
  intro c hc
  have hne : c ≠ '.' := fun he => h (he ▸ hc)
  simp [hne]

theorem run_notDot_rev {l : List Char} (h : '.' ∉ l) :
    ∀ c ∈ l.reverse, (!(c == '.')) = true := by
  intro c hc
  exact run_notDot h c (List.mem_reverse.mp hc)

theorem natDec_digits_rev {ts : Nat} :
    ∀ c ∈ (natDec ts).data.reverse, c.isDigit = true := by
  intro c hc
  exact natDec_digits c (List.mem_reverse.mp hc)

theorem natDec_rev_notDot {ts : Nat} :
    ∀ c ∈ (natDec ts).data.reverse, (!(c == '.')) = true := by
  intro c hc
  have hd := natDec_digits_rev c hc
  have : c ≠ '.' := isDigit_ne (by decide) hd
  simp [this]

/-- A name of the form run ++ '.' :: rest cannot equal digits ++ '-' :: base
when the base holds a dot at most in first position. -/
theorem dotted_vs_plain_contra {tl D1 b1 D2 b2 : List Char}
    (hD2 : ∀ c ∈ D2.reverse, c.isDigit = true)
    (hb2 : '.' ∉ b2 ∨ ∃ tl2, b2 = '.' :: tl2 ∧ '.' ∉ tl2)
    (h : tl.reverse ++ '.' :: (D1.reverse ++ '-' :: b1.reverse)
        = D2.reverse ++ '-' :: b2.reverse)
    (htl : '.' ∉ tl) : False := by
  rcases hb2 with hb2 | ⟨tl2, hb2, htl2⟩
  · have hmem : '.' ∈ D2.reverse ++ '-' :: b2.reverse := by
      rw [← h]; simp
    simp only [List.mem_append, List.mem_cons, List.mem_reverse] at hmem
    rcases hmem with hmem | hmem | hmem
    · have := hD2 '.' (List.mem_reverse.mpr hmem)
      exact Bool.noConfusion ((by decide : ('.' : Char).isDigit = false) ▸ this)
    · exact absurd hmem (by decide)
    · exact hb2 hmem
  · subst hb2
    have hshape : D2.reverse ++ '-' :: ('.' :: tl2).reverse
        = (D2.reverse ++ '-' :: tl2.reverse) ++ '.' :: ([] : List Char) := by
      simp [List.reverse_cons, List.append_assoc]
    rw [hshape] at h
    have hrun1 : ∀ c ∈ tl.reverse, (!(c == '.')) = true := run_notDot_rev htl
    have hrun2 : ∀ c ∈ D2.reverse ++ '-' :: tl2.reverse, (!(c == '.')) = true := by
      intro c hc
      simp only [List.mem_append, List.mem_cons] at hc
      rcases hc with hc | hc | hc
      · have hd := hD2 c hc
        have : c ≠ '.' := isDigit_ne (by decide) hd
        simp [this]
      · subst hc; decide
      · exact run_notDot_rev htl2 c hc
    obtain ⟨-, hemp⟩ := sep_split_eq (fun c => !(c == '.')) (by decide) hrun1 hrun2 h
    have hlen := congrArg List.length hemp
    simp at hlen


/-- The stored upload name determines the `Date.now()` reading: stored names
built from any original filenames but different timestamps differ. -/
theorem uploadStoredName_ts_inj {n1 n2 : String} {t1 t2 : Nat}
    (h : uploadStoredName n1 t1 = uploadStoredName n2 t2) : t1 = t2 := by
  have hd := congrArg String.data h
  rw [uploadStoredName_data, uploadStoredName_data] at hd
  have hr := congrArg List.reverse hd
  rcases ext_cases n1 with he1 | ⟨tl1, he1, htl1⟩ <;>
    rcases ext_cases n2 with he2 | ⟨tl2, he2, htl2⟩
  · rw [he1, he2] at hr
    simp only [List.append_nil] at hr
    rw [reverse_shape_plain, reverse_shape_plain] at hr
    obtain ⟨hD, -⟩ :=
      sep_split_eq Char.isDigit (by decide) natDec_digits_rev natDec_digits_rev hr
    exact natDec_inj (String.ext (List.reverse_injective hD))
  · exfalso
    rw [he1, he2] at hr
    simp only [List.append_nil] at hr
    rw [reverse_shape_plain, reverse_shape_dotted] at hr
    exact dotted_vs_plain_contra natDec_digits_rev (ext_empty_base n1 he1).2 hr.symm htl2
  · exfalso
    rw [he1, he2] at hr
    simp only [List.append_nil] at hr
    rw [reverse_shape_dotted, reverse_shape_plain] at hr
    exact dotted_vs_plain_contra natDec_digits_rev (ext_empty_base n2 he2).2 hr htl1
  · rw [he1, he2] at hr
    rw [reverse_shape_dotted, reverse_shape_dotted] at hr
    obtain ⟨-, h2⟩ := sep_split_eq (fun c => !(c == '.')) (by decide)
      (run_notDot_rev htl1) (run_notDot_rev htl2) hr
    obtain ⟨hD, -⟩ :=
      sep_split_eq Char.isDigit (by decide) natDec_digits_rev natDec_digits_rev h2
    exact natDec_inj (String.ext (List.reverse_injective hD))


theorem uploadStoredPath_ts_inj {n1 n2 : String} {t1 t2 : Nat}
    (h : uploadStoredPath n1 t1 = uploadStoredPath n2 t2) : t1 = t2 := by
  have hd := congrArg String.data h
  rw [uploadStoredPath_data, uploadStoredPath_data] at hd
  exact uploadStoredName_ts_inj (String.ext (List.append_cancel_left hd))

theorem reqOutBase_ts_inj {r1 r2 : ConvertReq}
    (h : reqOutBase r1 = reqOutBase r2) : r1.tsOut = r2.tsOut := by
  have hd := congrArg String.data h
  rw [reqOutBase_data, reqOutBase_data] at hd
  have hr := congrArg List.reverse hd
  rw [reverse_shape_plain, reverse_shape_plain] at hr
  obtain ⟨hD, -⟩ :=
    sep_split_eq Char.isDigit (by decide) natDec_digits_rev natDec_digits_rev hr
  exact natDec_inj (String.ext (List.reverse_injective hD))


/-! ## Filesystem lemmas -/

theorem FS.mem_add {fs : FS} {p q : Path} {c : FContent} :
    (fs.add p c).Mem q ↔ q = p ∨ fs.Mem q := by
  unfold FS.Mem FS.add
  constructor
  · rintro ⟨c', hm⟩
    simp only [List.mem_cons] at hm
    rcases hm with hm | hm
    · left; exact congrArg Prod.fst hm
    · right; exact ⟨c', hm⟩
  · rintro (rfl | ⟨c', hm⟩)
    · exact ⟨c, by simp⟩
    · exact ⟨c', by simp [hm]⟩

theorem FS.mem_removeP {fs : FS} {p q : Path} :
    (fs.removeP p).Mem q ↔ fs.Mem q ∧ q ≠ p ∧ pathUnder p q = false := by
  unfold FS.Mem FS.removeP
  constructor
  · rintro ⟨c', hm⟩
    rw [List.mem_filter] at hm
    obtain ⟨hm, hpred⟩ := hm
    simp only [Bool.and_eq_true, Bool.not_eq_true'] at hpred
    exact ⟨⟨c', hm⟩, beq_eq_false_iff_ne.mp hpred.1, hpred.2⟩
  · rintro ⟨⟨c', hm⟩, hne, hund⟩
    refine ⟨c', ?_⟩
    rw [List.mem_filter]
    exact ⟨hm, by simp [beq_eq_false_iff_ne.mpr hne, hund]⟩

theorem FS.not_mem_empty (p : Path) : ¬ FS.empty.Mem p := by
  rintro ⟨c, hm⟩
  exact absurd hm (List.not_mem_nil _)

theorem FS.exists?_iff {fs : FS} {p : Path} : fs.exists? p = true ↔ fs.Mem p := by
  unfold FS.exists? FS.Mem
  rw [List.any_eq_true]
  constructor
  · rintro ⟨⟨a, c⟩, hm, hb⟩
    rw [show ((a, c).1 == p) = (a == p) from rfl, beq_iff_eq] at hb
    subst hb
    exact ⟨c, hm⟩
  · rintro ⟨c, hm⟩
    exact ⟨(p, c), hm, by simp⟩

theorem FS.exists?_eq_false {fs : FS} {p : Path} : fs.exists? p = false ↔ ¬ fs.Mem p := by
  rw [← FS.exists?_iff]
  cases h : fs.exists? p <;> simp

theorem FS.exists?_add_self (fs : FS) (p : Path) (c : FContent) :
    (fs.add p c).exists? p = true := by
  simp [FS.exists?, FS.add]

theorem FS.lookup_add_self (fs : FS) (p : Path) (c : FContent) :
    (fs.add p c).lookup p = some c := by
  simp [FS.lookup, FS.add, List.find?_cons_of_pos]

theorem FS.mem_mono_removeP {fs : FS} {p q : Path} (h : (fs.removeP p).Mem q) : fs.Mem q :=
  (FS.mem_removeP.mp h).1

/-! ## Path shape and distinctness lemmas -/

theorem str_append_left_cancel {s x y : String} (h : s ++ x = s ++ y) : x = y := by
  have hd := congrArg String.data h
  simp only [String.data_append] at hd
  exact String.ext (List.append_cancel_left hd)

theorem append_ne_self {s x : String} (hx : x.data ≠ []) : s ++ x ≠ s := by
  intro h
  have hd := congrArg String.data h
  have hl := congrArg List.length hd
  simp only [String.data_append, List.length_append] at hl
  exact hx (List.eq_nil_of_length_eq_zero (by omega))

theorem pathUnder_append (d x : String) : pathUnder d (d ++ "/" ++ x) = true := by
  unfold pathUnder
  have hdata : (d ++ "/" ++ x).data = (d.data ++ ['/']) ++ x.data := by
    have hs : ("/" : String).data = ['/'] := rfl
    simp [String.data_append, hs]
  rw [hdata]
  exact List.isPrefixOf_iff_prefix.mpr (List.prefix_append _ _)

theorem pathUnder_false_of_short {d p : Path} (h : p.data.length < d.data.length + 1) :
    pathUnder d p = false := by
  unfold pathUnder
  cases hpre : List.isPrefixOf (d.data ++ ['/']) p.data
  · rfl
  · exfalso
    have hle := (List.isPrefixOf_iff_prefix.mp hpre).length_le
    simp only [List.length_append, List.length_singleton] at hle
    omega

theorem isPrefixOf_append_cancel {A X Y : List Char} :
    List.isPrefixOf (A ++ X) (A ++ Y) = List.isPrefixOf X Y := by
  induction A with
  | nil => rfl
  | cons a A ih => simp [List.isPrefixOf, ih]


theorem uploads_cons (x : String) :
    (UPLOADS_DIR ++ "/" ++ x).data = 'u' :: ("ploads/".data ++ x.data) := by
  have h1 : ("uploads" : String).data = 'u' :: "ploads".data := rfl
  have hs : ("/" : String).data = ['/'] := rfl
  have h2 : "ploads".data ++ ['/'] = "ploads/".data := rfl
  simp [UPLOADS_DIR, String.data_append, h1, hs, ← h2, List.append_assoc]

theorem outputs_cons (y : String) :
    (OUTPUTS_DIR ++ "/" ++ y).data = 'o' :: ("utputs/".data ++ y.data) := by
  have h1 : ("outputs" : String).data = 'o' :: "utputs".data := rfl
  have hs : ("/" : String).data = ['/'] := rfl
  have h2 : "utputs".data ++ ['/'] = "utputs/".data := rfl
  simp [OUTPUTS_DIR, String.data_append, h1, hs, ← h2, List.append_assoc]

theorem ne_uploads_outputs (x y : String) :
    (UPLOADS_DIR ++ "/" ++ x) ≠ (OUTPUTS_DIR ++ "/" ++ y) := by
  intro h
  have hd := congrArg String.data h
  rw [uploads_cons, outputs_cons] at hd
  have : 'u' = 'o' := (List.cons.injEq _ _ _ _ ▸ hd).1
  exact absurd this (by decide)

theorem pathUnder_uploads_outputs (x y : String) :
    pathUnder (UPLOADS_DIR ++ "/" ++ x) (OUTPUTS_DIR ++ "/" ++ y) = false := by
  unfold pathUnder
  rw [uploads_cons, outputs_cons]
  show List.isPrefixOf ('u' :: _ ++ ['/']) ('o' :: _) = false
  simp [List.isPrefixOf]

theorem pathUnder_outputs_uploads (x y : String) :
    pathUnder (OUTPUTS_DIR ++ "/" ++ y) (UPLOADS_DIR ++ "/" ++ x) = false := by
  unfold pathUnder
  rw [uploads_cons, outputs_cons]
  show List.isPrefixOf ('o' :: _ ++ ['/']) ('u' :: _) = false
  simp [List.isPrefixOf]


theorem firstPageName_join (outputDir : Path) :
    firstPageName (outputDir ++ "/" ++ "page") = outputDir ++ "/" ++ "page-1.jpg" := by
  unfold firstPageName
  rw [String.append_assoc, String.append_assoc]
  rw [show ("page" ++ "-1.jpg" : String) = "page-1.jpg" by decide, ← String.append_assoc]

/-! ## Claim C4 -/

/-- Claim C4: for every image accepted by the Image-to-PDF operation (decoder
reporting pixel size `w` by `h`), `imageToPdf` returns a document with exactly
one page of exactly that size, the image drawn at offset (0,0) at full page
width and height, the PNG codec used exactly when the lower-cased extension is
`.png` (JPEG otherwise), and the serialized document written to the output
path. -/
theorem C4_imageToPdf_one_page (w h : Nat) (inputPath outputPath : Path) (fs : FS) :
    imageToPdf (some (w, h)) (some (w, h)) inputPath outputPath fs
      = (.ok (imgDocFor inputPath w h), fs.add outputPath (.pdfOf (imgDocFor inputPath w h)))
    ∧ (imgDocFor inputPath w h).pages
        = [⟨w, h, [⟨⟨imgCodecFor inputPath, w, h⟩, 0, 0, w, h⟩]⟩]
    ∧ (imgCodecFor inputPath = .png ↔ toLowerStr (extname inputPath) = ".png") := by
  refine ⟨?_, rfl, ?_⟩
  · unfold imageToPdf imgDocFor imgCodecFor
    by_cases hx : toLowerStr (extname inputPath) = ".png" <;> simp [hx]
  · unfold imgCodecFor
    by_cases hx : toLowerStr (extname inputPath) = ".png" <;> simp [hx]

/-! ## Claim C5 -/

/-- Claim C5 counterexample: `imageToPdf` does not validate the extension: a
`.gif` input (outside jpg/jpeg/png) whose bytes decode as JPEG succeeds and
writes an output document instead of raising a failure. -/
theorem C5_counterexample :
    toLowerStr (extname "photo.gif") = ".gif"
    ∧ (".gif" : String) ≠ ".jpg" ∧ (".gif" : String) ≠ ".jpeg" ∧ (".gif" : String) ≠ ".png"
    ∧ imageToPdf (some (5, 5)) (some (7, 9)) "photo.gif" "outputs/out.pdf" .empty
      = (.ok ⟨[⟨7, 9, [⟨⟨.jpg, 7, 9⟩, 0, 0, 7, 9⟩]⟩]⟩,
         ⟨[("outputs/out.pdf", .pdfOf ⟨[⟨7, 9, [⟨⟨.jpg, 7, 9⟩, 0, 0, 7, 9⟩]⟩]⟩)]⟩) := by
  refine ⟨by decide, by decide, by decide, by decide, rfl⟩

/-- Claim C5 (amended): `imageToPdf` performs no extension allow-list check;
it selects the PNG decoder exactly for a lower-cased `.png` extension and the
JPEG decoder for every other extension — including extensions outside
jpg/jpeg/png — producing output whenever that decoder succeeds, so failures
arise only from decoding, never from validation. -/
theorem C5_no_extension_validation (w h : Nat) (inputPath outputPath : Path) (fs : FS) :
    (toLowerStr (extname inputPath) ≠ ".png" →
      imageToPdf none (some (w, h)) inputPath outputPath fs
        = (.ok ⟨[⟨w, h, [⟨⟨.jpg, w, h⟩, 0, 0, w, h⟩]⟩]⟩,
           fs.add outputPath (.pdfOf ⟨[⟨w, h, [⟨⟨.jpg, w, h⟩, 0, 0, w, h⟩]⟩]⟩)))
    ∧ (toLowerStr (extname inputPath) = ".png" →
      imageToPdf (some (w, h)) none inputPath outputPath fs
        = (.ok ⟨[⟨w, h, [⟨⟨.png, w, h⟩, 0, 0, w, h⟩]⟩]⟩,
           fs.add outputPath (.pdfOf ⟨[⟨w, h, [⟨⟨.png, w, h⟩, 0, 0, w, h⟩]⟩]⟩))) := by
  constructor
  · intro hx
    unfold imageToPdf
    simp [hx]
  · intro hx
    unfold imageToPdf
    simp [hx]


/-! ## Claims C7 and C10 -/

/-- Claim C7: the Linux branch (`pdftoppm`) and the library branch
(`pdf-poppler`) of `pdfToJpg` are equivalent at the interface: they return the
same result and leave the same filesystem, any successful result is the same
first-page path `outputDir/page-1.jpg`, and both raise the "no output" failure
exactly when that file is absent after the tool returns. -/
theorem C7_pdfToJpg_branch_equiv (pa produces : Bool) (inputPath outputDir : Path) (fs : FS) :
    (pdfToJpg true pa produces inputPath outputDir fs).1
        = (pdfToJpg false true produces inputPath outputDir fs).1
    ∧ (pdfToJpg true pa produces inputPath outputDir fs).2.1
        = (pdfToJpg false true produces inputPath outputDir fs).2.1
    ∧ (∀ p, (pdfToJpg true pa produces inputPath outputDir fs).1 = .ok p →
        p = outputDir ++ "/" ++ "page-1.jpg")
    ∧ ((pdfToJpg true pa produces inputPath outputDir fs).1
          = .error "PDF to JPG conversion produced no output."
        ↔ ((pdfToJpg true pa produces inputPath outputDir fs).2.1).exists?
            (outputDir ++ "/" ++ "page-1.jpg") = false) := by
  by_cases hpr : produces = true
  · have hex : ((fs.add outputDir .dirMark).add
        (firstPageName (outputDir ++ "/" ++ "page")) .jpgPage).exists?
          (outputDir ++ "/" ++ "page-1.jpg") = true := by
      rw [firstPageName_join]
      exact FS.exists?_add_self _ _ _
    refine ⟨?_, ?_, ?_, ?_⟩ <;>
      simp_all [pdfToJpg]
  · have hpr' : produces = false := by simpa using hpr
    by_cases hex : (fs.add outputDir .dirMark).exists? (outputDir ++ "/" ++ "page-1.jpg") = true
    · refine ⟨?_, ?_, ?_, ?_⟩ <;> simp_all [pdfToJpg]
    · have hex' : (fs.add outputDir .dirMark).exists? (outputDir ++ "/" ++ "page-1.jpg") = false := by
        cases h : (fs.add outputDir .dirMark).exists? (outputDir ++ "/" ++ "page-1.jpg")
        · rfl
        · exact absurd h hex
      refine ⟨?_, ?_, ?_, ?_⟩ <;> simp_all [pdfToJpg]


/-- Claim C10: on a non-Linux host with the `pdf-poppler` library absent,
`pdfToJpg` raises the distinct "not available on this system" failure, invokes
no external tool, and adds no page file — though the output directory has been
created; this third branch is reached exactly when the platform is not Linux
and the library is absent. -/
theorem C10_pdfToJpg_unavailable (isLinux popplerAvail produces : Bool)
    (inputPath outputDir : Path) (fs : FS) :
    pdfToJpg false false produces inputPath outputDir fs
      = (.error "PDF to JPG not available on this system. Install poppler-utils (Linux) or use Windows/Mac.",
         fs.add outputDir .dirMark, [])
    ∧ ((pdfToJpg isLinux popplerAvail produces inputPath outputDir fs).2.2 = []
        ↔ isLinux = false ∧ popplerAvail = false) := by
  constructor
  · simp [pdfToJpg]
  · cases isLinux <;> cases popplerAvail <;> simp [pdfToJpg] <;>
      cases hpr : produces <;> simp [hpr] <;> split <;> simp


/-! ## Claim C6 -/

theorem slash_append_ne_nil (x : String) : ("/" ++ x : String).data ≠ [] := by
  have hs : ("/" ++ x : String).data = '/' :: x.data := by
    have h0 : ("/" : String).data = ['/'] := rfl
    simp [String.data_append, h0]
  rw [hs]
  exact List.cons_ne_nil _ _

theorem dir_slash_ne (d x : String) : d ++ "/" ++ x ≠ d := by
  rw [String.append_assoc]
  exact append_ne_self (slash_append_ne_nil x)

theorem tempDocx_ne_tempPdf (ts : Nat) :
    loTempDir ts ++ "/" ++ "in.docx" ≠ loTempDir ts ++ "/" ++ "in.pdf" := by
  intro h
  have h2 := str_append_left_cancel (s := loTempDir ts ++ "/") h
  exact absurd h2 (by decide)

/-- Claim C6: every run of `pdfToDocx` copies the input as `in.pdf` into the
fresh temp directory `outputs/lo_<ts>`, invokes the office renderer exactly
once on that copy with a 60000 ms timeout, moves the produced file to the
final output path on success, removes the temp directory on every outcome —
success, missing output, tool not found, timeout, tool error — and surfaces
missing output, tool not found and timeout as conversion failures. -/
theorem C6_pdfToDocx_lifecycle (exec : LOExec) (liboCmd : String)
    (inputPath outputDir : Path) (ts : Nat) (fs : FS) :
    (¬ ((pdfToDocx exec liboCmd inputPath outputDir ts fs).2.1).Mem (loTempDir ts)
      ∧ ∀ q, pathUnder (loTempDir ts) q = true →
          ¬ ((pdfToDocx exec liboCmd inputPath outputDir ts fs).2.1).Mem q)
    ∧ (pdfToDocx exec liboCmd inputPath outputDir ts fs).2.2
        = [⟨liboCmd, ["--headless", "--infilter=writer_pdf_import", "--convert-to", "docx",
            "--outdir", loTempDir ts, loTempDir ts ++ "/" ++ "in.pdf"], some 60000⟩]
    ∧ (exec = .enoent ∨ exec = .timeout ∨ exec = .failed →
        ∃ m, (pdfToDocx exec liboCmd inputPath outputDir ts fs).1 = .error m)
    ∧ (exec = .okNoOutput → ¬ fs.Mem (loTempDir ts ++ "/" ++ "in.docx") →
        outputDir ≠ loTempDir ts ++ "/" ++ "in.docx" →
        (pdfToDocx exec liboCmd inputPath outputDir ts fs).1
          = .error "PDF to DOCX produced no output. Is LibreOffice installed?")
    ∧ (exec = .okProduced →
        (pdfToDocx exec liboCmd inputPath outputDir ts fs).1
          = .ok (outputDir ++ "/" ++ baseNameNoExt inputPath ++ ".docx"))
    ∧ (exec = .okProduced →
        outputDir ++ "/" ++ baseNameNoExt inputPath ++ ".docx" ≠ loTempDir ts →
        pathUnder (loTempDir ts) (outputDir ++ "/" ++ baseNameNoExt inputPath ++ ".docx") = false →
        ((pdfToDocx exec liboCmd inputPath outputDir ts fs).2.1).Mem
          (outputDir ++ "/" ++ baseNameNoExt inputPath ++ ".docx")) := by
  have hfinal : ∃ base : FS, (pdfToDocx exec liboCmd inputPath outputDir ts fs).2.1
      = base.removeP (loTempDir ts) := by
    unfold pdfToDocx
    cases exec
    · simp [FS.exists?_add_self]
      exact ⟨_, rfl⟩
    · simp only [reduceCtorEq, if_false]
      split <;> exact ⟨_, rfl⟩
    · exact ⟨_, rfl⟩
    · exact ⟨_, rfl⟩
    · exact ⟨_, rfl⟩
  obtain ⟨base, hb⟩ := hfinal
  refine ⟨⟨?_, ?_⟩, ?_, ?_, ?_, ?_, ?_⟩
  · rw [hb]
    intro hm
    rw [FS.mem_removeP] at hm
    exact hm.2.1 rfl
  · intro q hq
    rw [hb]
    intro hm
    rw [FS.mem_removeP] at hm
    exact Bool.noConfusion (hq ▸ hm.2.2)
  · unfold pdfToDocx
    cases exec
    · simp [FS.exists?_add_self]
    · simp only [reduceCtorEq, if_false]
      split <;> rfl
    · rfl
    · rfl
    · rfl
  · rintro (h | h | h) <;> subst h <;> unfold pdfToDocx <;> exact ⟨_, rfl⟩
  · intro h hmem hne
    subst h
    unfold pdfToDocx
    have hex : ((((fs.add outputDir .dirMark).add (loTempDir ts) .dirMark).add
        (loTempDir ts ++ "/" ++ "in.pdf") (.copyOf inputPath)).exists?
          (loTempDir ts ++ "/" ++ "in.docx")) = false := by
      rw [FS.exists?_eq_false]
      intro hm
      rw [FS.mem_add] at hm
      rcases hm with hm | hm
      · exact tempDocx_ne_tempPdf ts hm
      · rw [FS.mem_add] at hm
        rcases hm with hm | hm
        · exact dir_slash_ne (loTempDir ts) "in.docx" hm
        · rw [FS.mem_add] at hm
          rcases hm with hm | hm
          · exact hne hm.symm
          · exact hmem hm
    simp [hex]
  · intro h
    subst h
    unfold pdfToDocx
    simp [FS.exists?_add_self]
  · intro h hne hund
    subst h
    unfold pdfToDocx
    simp [FS.exists?_add_self]
    rw [FS.mem_removeP]
    refine ⟨?_, hne, hund⟩
    unfold FS.move
    rw [FS.lookup_add_self, FS.mem_add]
    left
    rfl


/-! ## Claim C8 -/

theorem tryListenJs_of_inl {listen : Nat → Option ListenErr} {PORT p : JsVal}
    {r : TryResult} (h : tryStep listen PORT p = .inl r) (fuel : Nat) :
    tryListenJs listen PORT fuel p = r := by
  cases fuel <;> simp [tryListenJs, h]

theorem tryListenJs_zero_of_inr {listen : Nat → Option ListenErr} {PORT p p1 : JsVal}
    (h : tryStep listen PORT p = .inr p1) :
    tryListenJs listen PORT 0 p = .spinning := by
  simp [tryListenJs, h]

theorem tryListenJs_succ_of_inr {listen : Nat → Option ListenErr} {PORT p p1 : JsVal}
    (h : tryStep listen PORT p = .inr p1) (fuel : Nat) :
    tryListenJs listen PORT (fuel + 1) p = tryListenJs listen PORT fuel p1 := by
  simp [tryListenJs, h]

theorem tryStep_num_free {listen : Nat → Option ListenErr} {b p : Nat}
    (hp : p ≤ 65535) (hl : listen p = none) :
    tryStep listen (.num b) (.num p) = .inl (.ok p) := by
  simp [tryStep, portNum?, hp, hl]

theorem tryStep_num_other {listen : Nat → Option ListenErr} {b p : Nat}
    (hp : p ≤ 65535) (hl : listen p = some .other) :
    tryStep listen (.num b) (.num p) = .inl .rejected := by
  simp [tryStep, portNum?, hp, hl]

theorem tryStep_num_retry {listen : Nat → Option ListenErr} {b p : Nat}
    (hp : p ≤ 65535) (hl : listen p = some .addrInUse) (hg : p < b + maxTries) :
    tryStep listen (.num b) (.num p) = .inr (.num (p + 1)) := by
  simp [tryStep, portNum?, hp, hl, jsAddNat, jsLt, hg]

theorem tryStep_num_stop {listen : Nat → Option ListenErr} {b p : Nat}
    (hl : listen p = some .addrInUse) (hg : ¬ p < b + maxTries) (hp : p ≤ 65535) :
    tryStep listen (.num b) (.num p) = .inl .rejected := by
  simp [tryStep, portNum?, hp, hl, jsAddNat, jsLt, hg]

theorem tryStep_num_highport {listen : Nat → Option ListenErr} {b p : Nat}
    (hp : ¬ p ≤ 65535) :
    tryStep listen (.num b) (.num p) = .inl .rejected := by
  simp [tryStep, portNum?, hp]

theorem tryListenJs_num_busy (listen : Nat → Option ListenErr) (b : Nat)
    (hb65 : b + maxTries ≤ 65535)
    (h : ∀ q, b ≤ q → q ≤ b + maxTries → listen q = some .addrInUse) :
    ∀ fuel p, b ≤ p → p ≤ b + maxTries → b + maxTries ≤ p + fuel →
      tryListenJs listen (.num b) fuel (.num p) = .rejected := by
  intro fuel
  induction fuel with
  | zero =>
    intro p hp1 hp2 hp3
    have hg : ¬ p < b + maxTries := by omega
    exact tryListenJs_of_inl (tryStep_num_stop (h p hp1 hp2) hg (by omega)) 0
  | succ f ih =>
    intro p hp1 hp2 hp3
    by_cases hg : p < b + maxTries
    · rw [tryListenJs_succ_of_inr (tryStep_num_retry (by omega) (h p hp1 hp2) hg) f]
      exact ih (p + 1) (by omega) (by omega) (by omega)
    · exact tryListenJs_of_inl (tryStep_num_stop (h p hp1 hp2) hg (by omega)) (f + 1)

theorem tryListenJs_num_ok (listen : Nat → Option ListenErr) (b : Nat) :
    ∀ fuel p q, tryListenJs listen (.num b) fuel (.num p) = .ok q →
      p ≤ q ∧ (q = p ∨ q ≤ b + maxTries) ∧ listen q = none ∧
        ∀ r, p ≤ r → r < q → listen r = some .addrInUse := by
  intro fuel
  induction fuel with
  | zero =>
    intro p q h
    by_cases hp : p ≤ 65535
    · cases hl : listen p with
      | none =>
        rw [tryListenJs_of_inl (tryStep_num_free hp hl) 0] at h
        obtain rfl : p = q := by injection h
        exact ⟨le_rfl, .inl rfl, hl, fun r h1 h2 => absurd h2 (by omega)⟩
      | some e =>
        cases e with
        | other =>
          rw [tryListenJs_of_inl (tryStep_num_other hp hl) 0] at h
          exact TryResult.noConfusion h
        | addrInUse =>
          by_cases hg : p < b + maxTries
          · rw [tryListenJs_zero_of_inr (tryStep_num_retry hp hl hg)] at h
            exact TryResult.noConfusion h
          · rw [tryListenJs_of_inl (tryStep_num_stop hl hg hp) 0] at h
            exact TryResult.noConfusion h
    · rw [tryListenJs_of_inl (tryStep_num_highport hp) 0] at h
      exact TryResult.noConfusion h
  | succ f ih =>
    intro p q h
    by_cases hp : p ≤ 65535
    · cases hl : listen p with
      | none =>
        rw [tryListenJs_of_inl (tryStep_num_free hp hl) (f + 1)] at h
        obtain rfl : p = q := by injection h
        exact ⟨le_rfl, .inl rfl, hl, fun r h1 h2 => absurd h2 (by omega)⟩
      | some e =>
        cases e with
        | other =>
          rw [tryListenJs_of_inl (tryStep_num_other hp hl) (f + 1)] at h
          exact TryResult.noConfusion h
        | addrInUse =>
          by_cases hg : p < b + maxTries
          · rw [tryListenJs_succ_of_inr (tryStep_num_retry hp hl hg) f] at h
            obtain ⟨h1, h2, h3, h4⟩ := ih (p + 1) q h
            refine ⟨by omega, ?_, h3, ?_⟩
            · right
              rcases h2 with rfl | h2 <;> omega
            · intro r hr1 hr2
              by_cases hr : r = p
              · subst hr
                exact hl
              · exact h4 r (by omega) hr2
          · rw [tryListenJs_of_inl (tryStep_num_stop hl hg hp) (f + 1)] at h
            exact TryResult.noConfusion h
    · rw [tryListenJs_of_inl (tryStep_num_highport hp) (f + 1)] at h
      exact TryResult.noConfusion h

theorem tryListenJs_num_no_spin (listen : Nat → Option ListenErr) (b : Nat) :
    ∀ fuel p, b + maxTries ≤ p + fuel →
      tryListenJs listen (.num b) fuel (.num p) ≠ .spinning := by
  intro fuel
  induction fuel with
  | zero =>
    intro p hf h
    by_cases hp : p ≤ 65535
    · cases hl : listen p with
      | none =>
        rw [tryListenJs_of_inl (tryStep_num_free hp hl) 0] at h
        exact TryResult.noConfusion h
      | some e =>
        cases e with
        | other =>
          rw [tryListenJs_of_inl (tryStep_num_other hp hl) 0] at h
          exact TryResult.noConfusion h
        | addrInUse =>
          have hg : ¬ p < b + maxTries := by omega
          rw [tryListenJs_of_inl (tryStep_num_stop hl hg hp) 0] at h
          exact TryResult.noConfusion h
    · rw [tryListenJs_of_inl (tryStep_num_highport hp) 0] at h
      exact TryResult.noConfusion h
  | succ f ih =>
    intro p hf h
    by_cases hp : p ≤ 65535
    · cases hl : listen p with
      | none =>
        rw [tryListenJs_of_inl (tryStep_num_free hp hl) (f + 1)] at h
        exact TryResult.noConfusion h
      | some e =>
        cases e with
        | other =>
          rw [tryListenJs_of_inl (tryStep_num_other hp hl) (f + 1)] at h
          exact TryResult.noConfusion h
        | addrInUse =>
          by_cases hg : p < b + maxTries
          · rw [tryListenJs_succ_of_inr (tryStep_num_retry hp hl hg) f] at h
            exact ih (p + 1) (by omega) h
          · rw [tryListenJs_of_inl (tryStep_num_stop hl hg hp) (f + 1)] at h
            exact TryResult.noConfusion h
    · rw [tryListenJs_of_inl (tryStep_num_highport hp) (f + 1)] at h
      exact TryResult.noConfusion h

theorem strLtLex_append (l : List Char) {m : List Char} (hm : m ≠ []) :
    strLtLex l (l ++ m) = true := by
  induction l with
  | nil =>
    cases m with
    | nil => exact absurd rfl hm
    | cons c m2 => rfl
  | cons a as ih => simp [strLtLex, ih]

theorem jsLt_str_guard (s : String) :
    jsLt (.str s) (jsAddNat (.str s) maxTries) = true := by
  show strLtLex s.data (s ++ natDec maxTries).data = true
  rw [show natDec maxTries = "5" from rfl, String.data_append,
    show ("5" : String).data = ['5'] from rfl]
  exact strLtLex_append s.data (by simp)

theorem decValAux_append (c : Char) :
    ∀ (l : List Char) (acc : Nat),
      decValAux (l ++ [c]) acc = 10 * decValAux l acc + (c.toNat - 48) := by
  intro l
  induction l with
  | nil => intro acc; rfl
  | cons a as ih =>
    intro acc
    simp only [List.cons_append, decValAux]
    exact ih _

theorem toNumber_append_one {s : String} (hd : s.data.all Char.isDigit = true)
    {v : Nat} (hv : toNumber? s = some v) :
    toNumber? (s ++ "1") = some (10 * v + 1) := by
  unfold toNumber? at hv ⊢
  rw [hd] at hv
  simp only [if_true] at hv
  obtain rfl : decValAux s.data 0 = v := by injection hv
  rw [String.data_append, show ("1" : String).data = ['1'] from rfl]
  have hall : (s.data ++ ['1']).all Char.isDigit = true := by
    rw [List.all_append, hd]
    decide
  rw [hall]
  simp only [if_true]
  rw [decValAux_append, show ('1'.toNat - 48) = 1 from rfl]

theorem tryStep_str_retry {listen : Nat → Option ListenErr} {PORT : JsVal}
    {s : String} {v : Nat} (hv : toNumber? s = some v) (hle : v ≤ 65535)
    (hbusy : listen v = some .addrInUse)
    (hg : jsLt (.str s) (jsAddNat PORT maxTries) = true) :
    tryStep listen PORT (.str s) = .inr (.str (s ++ "1")) := by
  have ha : jsAddNat (.str s) 1 = .str (s ++ "1") := rfl
  simp [tryStep, portNum?, hv, hle, hbusy, hg, ha]

theorem tryListenJs_str_no_spin (listen : Nat → Option ListenErr) (PORT : JsVal) :
    ∀ fuel (s : String), s.data.all Char.isDigit = true →
      589824 ≤ (9 * decValAux s.data 0 + 1) * 10 ^ fuel →
      tryListenJs listen PORT fuel (.str s) ≠ .spinning := by
  intro fuel
  induction fuel with
  | zero =>
    intro s hd hb h
    have hnle : ¬ decValAux s.data 0 ≤ 65535 := by
      simp only [pow_zero, mul_one] at hb
      omega
    have hs : tryStep listen PORT (.str s) = .inl .rejected := by
      simp [tryStep, portNum?, toNumber?, hd, hnle]
    rw [tryListenJs_of_inl hs 0] at h
    exact TryResult.noConfusion h
  | succ f ih =>
    intro s hd hb h
    by_cases hle : decValAux s.data 0 ≤ 65535
    · have hv : toNumber? s = some (decValAux s.data 0) := by
        simp [toNumber?, hd]
      cases hl : listen (decValAux s.data 0) with
      | none =>
        have hs : tryStep listen PORT (.str s) = .inl (.ok (decValAux s.data 0)) := by
          simp [tryStep, portNum?, hv, hle, hl]
        rw [tryListenJs_of_inl hs (f + 1)] at h
        exact TryResult.noConfusion h
      | some e =>
        cases e with
        | other =>
          have hs : tryStep listen PORT (.str s) = .inl .rejected := by
            simp [tryStep, portNum?, hv, hle, hl]
          rw [tryListenJs_of_inl hs (f + 1)] at h
          exact TryResult.noConfusion h
        | addrInUse =>
          cases hg : jsLt (.str s) (jsAddNat PORT maxTries) with
          | false =>
            have hs : tryStep listen PORT (.str s) = .inl .rejected := by
              simp [tryStep, portNum?, hv, hle, hl, hg]
            rw [tryListenJs_of_inl hs (f + 1)] at h
            exact TryResult.noConfusion h
          | true =>
            rw [tryListenJs_succ_of_inr (tryStep_str_retry hv hle hl hg) f] at h
            have hd1 : (s ++ "1").data.all Char.isDigit = true := by
              rw [String.data_append, show ("1" : String).data = ['1'] from rfl,
                List.all_append, hd]
              decide
            have hv1 : decValAux (s ++ "1").data 0 = 10 * decValAux s.data 0 + 1 := by
              rw [String.data_append, show ("1" : String).data = ['1'] from rfl,
                decValAux_append, show ('1'.toNat - 48) = 1 from rfl]
            refine ih (s ++ "1") hd1 ?_ h
            rw [hv1]
            calc (589824 : Nat)
                ≤ (9 * decValAux s.data 0 + 1) * 10 ^ (f + 1) := hb
              _ = (9 * (10 * decValAux s.data 0 + 1) + 1) * 10 ^ f := by ring
    · have hs : tryStep listen PORT (.str s) = .inl .rejected := by
        simp [tryStep, portNum?, toNumber?, hd, hle]
      rw [tryListenJs_of_inl hs (f + 1)] at h
      exact TryResult.noConfusion h

theorem tryListenJs_start_no_spin (listen : Nat → Option ListenErr)
    (envPort : Option String) :
    tryListenJs listen (jsPORT envPort) startFuel (jsPORT envPort) ≠ .spinning := by
  cases envPort with
  | none =>
    rw [show jsPORT none = JsVal.num 3000 from rfl]
    exact tryListenJs_num_no_spin listen 3000 startFuel 3000 (by decide)
  | some s =>
    by_cases hse : s = ""
    · subst hse
      rw [show jsPORT (some "") = JsVal.num 3000 from rfl]
      exact tryListenJs_num_no_spin listen 3000 startFuel 3000 (by decide)
    · rw [show jsPORT (some s) = JsVal.str s from by unfold jsPORT; simp [hse]]
      cases hd : s.data.all Char.isDigit with
      | true =>
        apply tryListenJs_str_no_spin listen _ startFuel s hd
        calc (589824 : Nat) ≤ 1 * 10 ^ startFuel := by norm_num [startFuel]
          _ ≤ (9 * decValAux s.data 0 + 1) * 10 ^ startFuel :=
            Nat.mul_le_mul (by omega) le_rfl
      | false =>
        intro h
        have hs : tryStep listen (.str s) (.str s) = .inl .rejected := by
          simp [tryStep, portNum?, toNumber?, hd]
        rw [tryListenJs_of_inl hs startFuel] at h
        exact TryResult.noConfusion h

/-- Claim C8 counterexample: with `PORT=3000` configured in the environment —
an environment variable, hence a **string** — and port 3000 occupied, the
retry computes `"3000" + 1 = "30001"` by string concatenation (and the guard
compares `"3000" < "3000" + 5 = "30005"` lexicographically), so the server
ends up running on port 30001, not on the incremented port 3001 the claim
states; with the variable unset (numeric default 3000) the same occupancy
yields port 3001. -/
theorem C8_counterexample :
    startJs (fun n => if n == 3000 then some .addrInUse else none) (some "3000")
      = .running 30001
    ∧ startJs (fun n => if n == 3000 then some .addrInUse else none) none
      = .running 3001
    ∧ (30001 : Nat) ≠ 3000 + 1 :=
  ⟨rfl, rfl, by decide⟩

/-- Claim C8 (amended): with the numeric default `PORT` (env unset), startup
retries exactly on successively incremented ports 3000..3005 and exits with
code 1 once all are occupied, and a successful start runs on the first free
port of that window. But an env-configured `PORT` is a string: `+` is
concatenation (`s + 1 = s ++ "1"`, `s + 5 = s ++ "5"`), the retry guard
`p < PORT + maxTries` is a lexicographic comparison that is always true (so
it never bounds the retries), the retried value appends a digit — numeric
value `10*v + 1`, not `v + 1` — and the recursion stops only because the
grown value leaves the valid port range. In every configuration the model's
recursion terminates within the `startFuel` budget. -/
theorem C8_retry_concats_for_env_port (listen : Nat → Option ListenErr)
    (envPort : Option String) (s : String) (v fuel : Nat) :
    ((∀ q, 3000 ≤ q → q ≤ 3005 → listen q = some .addrInUse) →
        startJs listen none = .exited 1)
    ∧ (∀ q, startJs listen none = .running q →
        3000 ≤ q ∧ q ≤ 3005 ∧ listen q = none ∧
          ∀ r, 3000 ≤ r → r < q → listen r = some .addrInUse)
    ∧ (¬ s = "" → jsPORT (some s) = .str s)
    ∧ jsAddNat (.str s) 1 = .str (s ++ "1")
    ∧ jsAddNat (.str s) maxTries = .str (s ++ "5")
    ∧ jsLt (.str s) (jsAddNat (.str s) maxTries) = true
    ∧ (toNumber? s = some v → v ≤ 65535 → listen v = some .addrInUse →
        tryListenJs listen (.str s) (fuel + 1) (.str s)
          = tryListenJs listen (.str s) fuel (.str (s ++ "1")))
    ∧ (s.data.all Char.isDigit = true → toNumber? s = some v →
        toNumber? (s ++ "1") = some (10 * v + 1))
    ∧ tryListenJs listen (jsPORT envPort) startFuel (jsPORT envPort)
        ≠ .spinning := by
  have hm5 : maxTries = 5 := rfl
  refine ⟨?_, ?_, ?_, rfl, rfl, jsLt_str_guard s, ?_, ?_,
    tryListenJs_start_no_spin listen envPort⟩
  · intro h
    have h2 : ∀ q, 3000 ≤ q → q ≤ 3000 + maxTries → listen q = some .addrInUse := by
      intro q hq1 hq2
      exact h q hq1 (by omega)
    unfold startJs
    rw [show jsPORT none = JsVal.num 3000 from rfl]
    rw [tryListenJs_num_busy listen 3000 (by decide) h2 startFuel 3000 le_rfl
      (by decide) (by decide)]
  · intro q h
    unfold startJs at h
    rw [show jsPORT none = JsVal.num 3000 from rfl] at h
    cases ht : tryListenJs listen (.num 3000) startFuel (.num 3000) with
    | ok n =>
      rw [ht] at h
      obtain rfl : n = q := by injection h
      obtain ⟨h1, h2, h3, h4⟩ := tryListenJs_num_ok listen 3000 startFuel 3000 n ht
      exact ⟨h1, by rcases h2 with rfl | h2 <;> omega, h3, h4⟩
    | rejected =>
      rw [ht] at h
      exact StartOutcome.noConfusion h
    | spinning =>
      rw [ht] at h
      exact StartOutcome.noConfusion h
  · intro hse
    unfold jsPORT
    simp [hse]
  · intro hv hle hbusy
    exact tryListenJs_succ_of_inr
      (tryStep_str_retry hv hle hbusy (jsLt_str_guard s)) fuel
  · intro hd hv
    exact toNumber_append_one hd hv


/-! ## Claim C9 -/

/-- Claim C9 counterexample: two distinct requests (different identities) that
carry the same original filename and observe the same `Date.now()` millisecond
receive identical upload paths and identical output stems, so path uniqueness
does not hold for every pair of distinct requests. -/
theorem C9_counterexample :
    (⟨0, true, "report.pdf", "application/pdf", 2048, some "pdf", 100, 100⟩ : ConvertReq)
      ≠ ⟨1, true, "report.pdf", "application/pdf", 2048, some "pdf", 100, 100⟩
    ∧ reqUploadPath ⟨0, true, "report.pdf", "application/pdf", 2048, some "pdf", 100, 100⟩
        = reqUploadPath ⟨1, true, "report.pdf", "application/pdf", 2048, some "pdf", 100, 100⟩
    ∧ reqOutBase ⟨0, true, "report.pdf", "application/pdf", 2048, some "pdf", 100, 100⟩
        = reqOutBase ⟨1, true, "report.pdf", "application/pdf", 2048, some "pdf", 100, 100⟩ := by
  exact ⟨by decide, rfl, rfl⟩

/-- Claim C9 (amended): scratch paths are request-scoped for requests that
observe distinct `Date.now()` readings — the time-based suffix makes the
stored upload path and the output stem injective in the timestamp, whatever
the original filenames; two requests sharing a filename and a millisecond,
however, collide. -/
theorem C9_paths_distinct_of_ts (r1 r2 : ConvertReq) :
    (r1.tsUpload ≠ r2.tsUpload → reqUploadPath r1 ≠ reqUploadPath r2)
    ∧ (r1.tsOut ≠ r2.tsOut → reqOutBase r1 ≠ reqOutBase r2) := by
  constructor
  · intro hts h
    unfold reqUploadPath at h
    exact hts (uploadStoredPath_ts_inj h)
  · intro hts h
    exact hts (reqOutBase_ts_inj h)


/-! ## Cleanup and pipeline helper lemmas -/

theorem run_notSlash {l : List Char} (h : '/' ∉ l) : ∀ c ∈ l, (!(c == '/')) = true := by
  intro c hc
  have hne : c ≠ '/' := fun he => h (he ▸ hc)
  simp [hne]

theorem pathUnder_true_elim {d p : Path} (h : pathUnder d p = true) :
    ∃ rest, p.data = d.data ++ '/' :: rest := by
  unfold pathUnder at h
  obtain ⟨rest, hr⟩ := List.isPrefixOf_iff_prefix.mp h
  exact ⟨rest, by rw [← hr]; simp⟩

theorem pathUnder_parent_false (d x : String) : pathUnder (d ++ "/" ++ x) d = false := by
  apply pathUnder_false_of_short
  have h1 : (d ++ "/" ++ x).data = d.data ++ '/' :: x.data := by
    have hs : ("/" : String).data = ['/'] := rfl
    simp [String.data_append, hs]
  rw [h1]
  simp
  omega

theorem guard_remove_mem_mono {fs : FS} {p q : Path}
    (h : (if fs.exists? p = true then fs.removeP p else fs).Mem q) : fs.Mem q := by
  split at h
  · exact (FS.mem_removeP.mp h).1
  · exact h

theorem guard_remove_not_mem (fs : FS) (p : Path) :
    ¬ (if fs.exists? p = true then fs.removeP p else fs).Mem p := by
  split
  · intro hm
    exact (FS.mem_removeP.mp hm).2.1 rfl
  · next hex =>
    intro hm
    exact hex (FS.exists?_iff.mpr hm)

/-- Cleanup only ever deletes: membership afterwards implies membership
before. -/
theorem cleanup_mem_mono {u : Path} {o d : Option Path} {fs : FS} {q : Path}
    (h : (cleanupArtifacts u o d fs).Mem q) : fs.Mem q := by
  unfold cleanupArtifacts at h
  cases d with
  | none =>
    cases o with
    | none => exact guard_remove_mem_mono h
    | some p => exact guard_remove_mem_mono (guard_remove_mem_mono h)
  | some dd =>
    cases o with
    | none => exact guard_remove_mem_mono (guard_remove_mem_mono h)
    | some p =>
      exact guard_remove_mem_mono (guard_remove_mem_mono (guard_remove_mem_mono h))

theorem cleanup_not_mem_upload (u : Path) (o d : Option Path) (fs : FS) :
    ¬ (cleanupArtifacts u o d fs).Mem u := by
  unfold cleanupArtifacts
  cases d with
  | none =>
    cases o with
    | none => exact guard_remove_not_mem fs u
    | some p =>
      intro hm
      exact guard_remove_not_mem fs u (guard_remove_mem_mono hm)
  | some dd =>
    cases o with
    | none =>
      intro hm
      exact guard_remove_not_mem fs u (guard_remove_mem_mono hm)
    | some p =>
      intro hm
      exact guard_remove_not_mem fs u (guard_remove_mem_mono (guard_remove_mem_mono hm))

theorem cleanup_not_mem_out (u p : Path) (d : Option Path) (fs : FS) :
    ¬ (cleanupArtifacts u (some p) d fs).Mem p := by
  unfold cleanupArtifacts
  cases d with
  | none => exact guard_remove_not_mem _ p
  | some dd =>
    intro hm
    exact guard_remove_not_mem _ p (guard_remove_mem_mono hm)

theorem cleanup_not_mem_dir (u : Path) (o : Option Path) (dd : Path) (fs : FS) :
    ¬ (cleanupArtifacts u o (some dd) fs).Mem dd := by
  unfold cleanupArtifacts
  exact guard_remove_not_mem _ dd


theorem baseNameNoExt_no_slash (s : String) : '/' ∉ (baseNameNoExt s).data := by
  intro hm
  exact fileTail_no_slash s (base_append_ext s ▸ List.mem_append_left _ hm)

theorem extname_no_slash (s : String) : '/' ∉ (extname s).data := by
  intro hm
  exact fileTail_no_slash s (base_append_ext s ▸ List.mem_append_right _ hm)

theorem natDec_no_slash {ts : Nat} : '/' ∉ (natDec ts).data := by
  intro hm
  have h1 := natDec_digits '/' hm
  have h2 : ('/' : Char).isDigit = false := by decide
  rw [h1] at h2
  exact Bool.noConfusion h2

theorem natDec_no_dash {ts : Nat} : '-' ∉ (natDec ts).data := by
  intro hm
  have h1 := natDec_digits '-' hm
  have h2 : ('-' : Char).isDigit = false := by decide
  rw [h1] at h2
  exact Bool.noConfusion h2

theorem uploadStoredName_no_slash (n : String) (ts : Nat) :
    '/' ∉ (uploadStoredName n ts).data := by
  rw [uploadStoredName_data]
  intro hm
  simp only [List.mem_append, List.mem_cons] at hm
  rcases hm with hm | hm | hm | hm
  · exact baseNameNoExt_no_slash n hm
  · exact absurd hm (by decide)
  · exact natDec_no_slash hm
  · exact extname_no_slash n hm

theorem fileTail_uploadStoredPath (n : String) (ts : Nat) :
    fileTail (uploadStoredPath n ts) = (uploadStoredName n ts).data := by
  have hnone : lastIdxOf '/' (uploadStoredName n ts).data = none :=
    lastIdxOf_eq_none_iff.mpr (uploadStoredName_no_slash n ts)
  have hidx : lastIdxOf '/' (uploadStoredPath n ts).data = some 7 := by
    rw [uploadStoredPath_data, lastIdxOf_append_none _ hnone]
    decide
  rw [fileTail_of_some hidx, uploadStoredPath_data]
  rw [show (7 : Nat) + 1 = ("uploads/".data).length from by decide]
  exact List.drop_left _ _

/-- The stored upload path preserves the original's extension (for nonempty
extensions). -/
theorem extname_uploadStoredPath {n : String} (ts : Nat)
    (hne : (extname n).data ≠ []) :
    extname (uploadStoredPath n ts) = extname n := by
  rcases ext_cases n with he | ⟨tl, he, htl⟩
  · exact absurd he hne
  · have hS : (uploadStoredName n ts).data
        = ((baseNameNoExt n).data ++ '-' :: (natDec ts).data) ++ '.' :: tl := by
      rw [uploadStoredName_data, he]
      simp [List.append_assoc]
    have hidx : lastIdxOf '.' (fileTail (uploadStoredPath n ts))
        = some (((baseNameNoExt n).data ++ '-' :: (natDec ts).data).length) := by
      rw [fileTail_uploadStoredPath, hS]
      exact lastIdxOf_append_sep '.' _ tl htl
    have hlen : ((baseNameNoExt n).data ++ '-' :: (natDec ts).data).length
        = ((baseNameNoExt n).data.length + (natDec ts).data.length) + 1 := by
      simp only [List.length_append, List.length_cons]
      omega
    rw [hlen] at hidx
    rw [extname_of_succ hidx, fileTail_uploadStoredPath, hS]
    have hdrop : (((baseNameNoExt n).data ++ '-' :: (natDec ts).data) ++ '.' :: tl).drop
        (((baseNameNoExt n).data.length + (natDec ts).data.length) + 1) = '.' :: tl := by
      rw [← hlen]
      exact List.drop_left _ _
    rw [hdrop, ← he]

theorem ext_ne_nil_of_img {n : String}
    (h : [".jpg", ".jpeg", ".png"].contains (toLowerStr (extname n)) = true) :
    (extname n).data ≠ [] := by
  intro hnil
  have he : extname n = "" := String.ext (by rw [hnil])
  rw [he] at h
  exact absurd h (by decide)

theorem ext_ne_nil_of_office {n : String}
    (h : [".docx", ".pptx", ".xlsx"].contains (toLowerStr (extname n)) = true) :
    (extname n).data ≠ [] := by
  intro hnil
  have he : extname n = "" := String.ext (by rw [hnil])
  rw [he] at h
  exact absurd h (by decide)


theorem mem_singleton_fs {p q : Path} {c : FContent} :
    (⟨[(p, c)]⟩ : FS).Mem q ↔ q = p := by
  unfold FS.Mem
  constructor
  · rintro ⟨c', hm⟩
    simp only [List.mem_singleton] at hm
    exact congrArg Prod.fst hm
  · rintro rfl
    exact ⟨c, by simp⟩

theorem data_head_append {a : String} {c : Char} {l : List Char} (h : a.data = c :: l)
    (b : String) : (a ++ b).data = c :: (l ++ b.data) := by
  simp [String.data_append, h]

theorem outputs_head0 : (OUTPUTS_DIR : String).data = 'o' :: "utputs".data := rfl

theorem ne_of_heads {a b : String} {c1 c2 : Char} {l1 l2 : List Char}
    (ha : a.data = c1 :: l1) (hb : b.data = c2 :: l2) (hc : c1 ≠ c2) : a ≠ b := by
  intro he
  subst he
  rw [ha] at hb
  injection hb with hb1 _
  exact hc hb1

theorem pathUnder_false_of_heads {d p : Path} {c1 c2 : Char} {l1 l2 : List Char}
    (hd : d.data = c1 :: l1) (hp : p.data = c2 :: l2) (hc : c1 ≠ c2) :
    pathUnder d p = false := by
  unfold pathUnder
  rw [hd, hp]
  show List.isPrefixOf (c1 :: (l1 ++ ['/'])) (c2 :: l2) = false
  simp [List.isPrefixOf, hc]

theorem route_office_elim {ext tgt : String} (h : routeConversion ext tgt = some .office) :
    ([".docx", ".pptx", ".xlsx"].contains ext && (tgt == "pdf")) = true := by
  unfold routeConversion at h
  split at h
  · assumption
  · split at h
    · simp at h
    · split at h
      · simp at h
      · split at h
        · simp at h
        · simp at h

theorem route_jpg_elim {ext tgt : String} (h : routeConversion ext tgt = some .pdf2jpg) :
    ((ext == ".pdf") && (tgt == "jpg")) = true := by
  unfold routeConversion at h
  split at h
  · simp at h
  · split at h
    · assumption
    · split at h
      · simp at h
      · split at h
        · simp at h
        · simp at h

theorem route_docx_elim {ext tgt : String} (h : routeConversion ext tgt = some .pdf2docx) :
    ((ext == ".pdf") && (tgt == "docx")) = true := by
  unfold routeConversion at h
  split at h
  · simp at h
  · split at h
    · simp at h
    · split at h
      · assumption
      · split at h
        · simp at h
        · simp at h

theorem route_img_elim {ext tgt : String} (h : routeConversion ext tgt = some .img2pdf) :
    ([".jpg", ".jpeg", ".png"].contains ext && (tgt == "pdf")) = true := by
  unfold routeConversion at h
  split at h
  · simp at h
  · split at h
    · simp at h
    · split at h
      · simp at h
      · split at h
        · assumption
        · simp at h


theorem dirDocx_ne_tempDocx (n : String) (tsO tsT : Nat) :
    OUTPUTS_DIR ++ "/" ++ baseNameNoExt n ++ "-" ++ natDec tsO ++ "-docx"
      ≠ loTempDir tsT ++ "/" ++ "in.docx" := by
  intro h
  have hd := congrArg String.data h
  have hs : ("/" : String).data = ['/'] := rfl
  have hdash : ("-" : String).data = ['-'] := rfl
  simp only [loTempDir, String.data_append, hs, hdash, List.append_assoc,
    List.singleton_append] at hd
  have hLR := List.append_cancel_left hd
  injection hLR with _ hLR2
  have hmem : '/' ∈ (baseNameNoExt n).data.append
      ('-' :: (natDec tsO).data ++ ['-', 'd', 'o', 'c', 'x']) := by
    rw [hLR2]
    simp
  simp only [List.append_eq, List.mem_append, List.mem_cons, or_assoc] at hmem
  rcases hmem with hm | hm | hm | hm
  · exact baseNameNoExt_no_slash n hm
  · exact absurd hm (by decide)
  · exact natDec_no_slash hm
  · exact absurd hm (by decide)


/-! ## Handler branch evaluations (from the one-upload filesystem) -/

theorem office_check_passes (r : ConvertReq)
    (hc : [".docx", ".pptx", ".xlsx"].contains (toLowerStr (extname r.originalname)) = true) :
    [".docx", ".pptx", ".xlsx"].contains (toLowerStr (extname (reqUploadPath r))) = true := by
  unfold reqUploadPath
  rw [extname_uploadStoredPath r.tsUpload (ext_ne_nil_of_office hc)]
  exact hc

theorem officeToPdf_eval (libreOk : Bool) (r : ConvertReq) (outP : Path) (fs : FS)
    (hc : [".docx", ".pptx", ".xlsx"].contains (toLowerStr (extname r.originalname)) = true) :
    officeToPdf libreOk (reqUploadPath r) outP fs
      = if libreOk then (.ok (), fs.add outP .officePdf)
        else (.error "libreoffice-convert failed", fs) := by
  unfold officeToPdf
  simp only [office_check_passes r hc, Bool.not_true]
  simp

theorem handler_office (env : ToolEnv) (r : ConvertReq)
    (hroute : routeConversion (toLowerStr (extname r.originalname))
        (normalizeTarget r.targetFormatField) = some .office)
    (htgt : ¬ normalizeTarget r.targetFormatField = "") :
    convertHandler env r (some (reqUploadPath r)) ⟨[(reqUploadPath r, .uploadBlob)]⟩
      = (if env.libreOk then
          Response.download
            (OUTPUTS_DIR ++ "/" ++ baseNameNoExt r.originalname ++ "-" ++ natDec r.tsOut ++ ".pdf")
            (fileBasename
              (OUTPUTS_DIR ++ "/" ++ baseNameNoExt r.originalname ++ "-" ++ natDec r.tsOut ++ ".pdf"))
         else .json 500 "libreoffice-convert failed",
         cleanupArtifacts (reqUploadPath r)
           (some (OUTPUTS_DIR ++ "/" ++ baseNameNoExt r.originalname ++ "-" ++ natDec r.tsOut ++ ".pdf"))
           none
           (if env.libreOk then
             FS.add ⟨[(reqUploadPath r, .uploadBlob)]⟩
               (OUTPUTS_DIR ++ "/" ++ baseNameNoExt r.originalname ++ "-" ++ natDec r.tsOut ++ ".pdf")
               .officePdf
            else ⟨[(reqUploadPath r, .uploadBlob)]⟩),
         [.office]) := by
  have hc := route_office_elim hroute
  rw [Bool.and_eq_true] at hc
  unfold convertHandler
  simp only [htgt, if_false, hroute]
  rw [officeToPdf_eval env.libreOk r _ _ hc.1]
  cases hl : env.libreOk <;> simp [hl]


theorem ohead_append {a : String} (h : ∃ l, a.data = 'o' :: l) (b : String) :
    ∃ l, (a ++ b).data = 'o' :: l := by
  obtain ⟨l, hl⟩ := h
  exact ⟨_, data_head_append hl b⟩

theorem ohead_base : ∃ l, (OUTPUTS_DIR : String).data = 'o' :: l := ⟨_, outputs_head0⟩

theorem up_head (r : ConvertReq) : ∃ l, (reqUploadPath r).data = 'u' :: l :=
  ⟨_, uploads_cons _⟩

theorem up_ne_opath {r : ConvertReq} {b : Path} (hb : ∃ l, b.data = 'o' :: l) :
    reqUploadPath r ≠ b := by
  obtain ⟨l1, h1⟩ := up_head r
  obtain ⟨l2, h2⟩ := hb
  exact ne_of_heads h1 h2 (by decide)

theorem handler_office_t (env : ToolEnv) (r : ConvertReq)
    (hroute : routeConversion (toLowerStr (extname r.originalname))
        (normalizeTarget r.targetFormatField) = some .office)
    (htgt : ¬ normalizeTarget r.targetFormatField = "")
    (hl : env.libreOk = true) :
    convertHandler env r (some (reqUploadPath r)) ⟨[(reqUploadPath r, .uploadBlob)]⟩
      = (.download
           (OUTPUTS_DIR ++ "/" ++ baseNameNoExt r.originalname ++ "-" ++ natDec r.tsOut ++ ".pdf")
           (fileBasename
             (OUTPUTS_DIR ++ "/" ++ baseNameNoExt r.originalname ++ "-" ++ natDec r.tsOut ++ ".pdf")),
         cleanupArtifacts (reqUploadPath r)
           (some (OUTPUTS_DIR ++ "/" ++ baseNameNoExt r.originalname ++ "-" ++ natDec r.tsOut ++ ".pdf"))
           none
           (FS.add ⟨[(reqUploadPath r, .uploadBlob)]⟩
             (OUTPUTS_DIR ++ "/" ++ baseNameNoExt r.originalname ++ "-" ++ natDec r.tsOut ++ ".pdf")
             .officePdf),
         [.office]) := by
  rw [handler_office env r hroute htgt, hl]
  simp

theorem handler_office_f (env : ToolEnv) (r : ConvertReq)
    (hroute : routeConversion (toLowerStr (extname r.originalname))
        (normalizeTarget r.targetFormatField) = some .office)
    (htgt : ¬ normalizeTarget r.targetFormatField = "")
    (hl : env.libreOk = false) :
    convertHandler env r (some (reqUploadPath r)) ⟨[(reqUploadPath r, .uploadBlob)]⟩
      = (.json 500 "libreoffice-convert failed",
         cleanupArtifacts (reqUploadPath r)
           (some (OUTPUTS_DIR ++ "/" ++ baseNameNoExt r.originalname ++ "-" ++ natDec r.tsOut ++ ".pdf"))
           none ⟨[(reqUploadPath r, .uploadBlob)]⟩,
         [.office]) := by
  rw [handler_office env r hroute htgt, hl]
  simp

theorem handler_office_spec (env : ToolEnv) (r : ConvertReq)
    (hroute : routeConversion (toLowerStr (extname r.originalname))
        (normalizeTarget r.targetFormatField) = some .office)
    (htgt : ¬ normalizeTarget r.targetFormatField = "") :
    BranchSpec (convertHandler env r (some (reqUploadPath r)) ⟨[(reqUploadPath r, .uploadBlob)]⟩)
      .office (toolOk env (toLowerStr (extname r.originalname)) .office) := by
  unfold BranchSpec toolOk
  cases hl : env.libreOk
  · rw [handler_office_f env r hroute htgt hl]
    refine ⟨rfl, fun _ => ⟨rfl, rfl, ?_⟩, fun hcontra => absurd hcontra (by simp)⟩
    intro q hm
    have hq := cleanup_mem_mono hm
    rw [mem_singleton_fs] at hq
    subst hq
    exact cleanup_not_mem_upload _ _ _ _ hm
  · rw [handler_office_t env r hroute htgt hl]
    refine ⟨rfl, fun hcontra => absurd hcontra (by simp), fun _ => ⟨⟨_, _, rfl⟩, ?_⟩⟩
    intro q hm
    have hq := cleanup_mem_mono hm
    rw [FS.mem_add] at hq
    rcases hq with rfl | hq
    · exact cleanup_not_mem_out _ _ _ _ hm
    · rw [mem_singleton_fs] at hq
      subst hq
      exact cleanup_not_mem_upload _ _ _ _ hm


theorem pdfToJpg_unavail (produces : Bool) (i o : Path) (fs : FS) :
    pdfToJpg false false produces i o fs
      = (.error "PDF to JPG not available on this system. Install poppler-utils (Linux) or use Windows/Mac.",
         fs.add o .dirMark, []) := by
  simp [pdfToJpg]

theorem pdfToJpg_produces_linux (pa : Bool) (i o : Path) (fs : FS) :
    pdfToJpg true pa true i o fs
      = (.ok (o ++ "/" ++ "page-1.jpg"),
         (fs.add o .dirMark).add (o ++ "/" ++ "page-1.jpg") .jpgPage,
         [⟨"pdftoppm", ["-jpeg", "-f", "1", "-l", "1", i, o ++ "/" ++ "page"], none⟩]) := by
  unfold pdfToJpg
  simp [firstPageName_join, FS.exists?_add_self]

theorem pdfToJpg_produces_poppler (i o : Path) (fs : FS) :
    pdfToJpg false true true i o fs
      = (.ok (o ++ "/" ++ "page-1.jpg"),
         (fs.add o .dirMark).add (o ++ "/" ++ "page-1.jpg") .jpgPage,
         [⟨"pdf-poppler convert",
           [i, "format=jpeg", "out_dir=" ++ o, "out_prefix=page", "page=1"], none⟩]) := by
  unfold pdfToJpg
  simp [firstPageName_join, FS.exists?_add_self]

theorem pdfToJpg_noraster_linux (pa : Bool) (i o : Path) (fs : FS)
    (hex : (fs.add o .dirMark).exists? (o ++ "/" ++ "page-1.jpg") = false) :
    pdfToJpg true pa false i o fs
      = (.error "PDF to JPG conversion produced no output.", fs.add o .dirMark,
         [⟨"pdftoppm", ["-jpeg", "-f", "1", "-l", "1", i, o ++ "/" ++ "page"], none⟩]) := by
  unfold pdfToJpg
  simp [hex]

theorem pdfToJpg_noraster_poppler (i o : Path) (fs : FS)
    (hex : (fs.add o .dirMark).exists? (o ++ "/" ++ "page-1.jpg") = false) :
    pdfToJpg false true false i o fs
      = (.error "PDF to JPG conversion produced no output.", fs.add o .dirMark,
         [⟨"pdf-poppler convert",
           [i, "format=jpeg", "out_dir=" ++ o, "out_prefix=page", "page=1"], none⟩]) := by
  unfold pdfToJpg
  simp [hex]

theorem mem_none_updir (r : ConvertReq) (dirP : Path) (o? : Option Path) :
    ∀ q, ¬ (cleanupArtifacts (reqUploadPath r) o? (some dirP)
        (FS.add (FS.add ⟨[(reqUploadPath r, .uploadBlob)]⟩ dirP .dirMark) dirP .dirMark)).Mem q := by
  intro q hm
  have hq := cleanup_mem_mono hm
  rw [FS.mem_add] at hq
  rcases hq with rfl | hq
  · exact cleanup_not_mem_dir _ _ _ _ hm
  · rw [FS.mem_add] at hq
    rcases hq with rfl | hq
    · exact cleanup_not_mem_dir _ _ _ _ hm
    · rw [mem_singleton_fs] at hq
      subst hq
      exact cleanup_not_mem_upload _ _ _ _ hm

theorem mem_none_updirpage (r : ConvertReq) (dirP pageP : Path) :
    ∀ q, ¬ (cleanupArtifacts (reqUploadPath r) (some pageP) (some dirP)
        (FS.add (FS.add (FS.add ⟨[(reqUploadPath r, .uploadBlob)]⟩ dirP .dirMark) dirP .dirMark)
          pageP .jpgPage)).Mem q := by
  intro q hm
  have hq := cleanup_mem_mono hm
  rw [FS.mem_add] at hq
  rcases hq with rfl | hq
  · exact cleanup_not_mem_out _ _ _ _ hm
  · rw [FS.mem_add] at hq
    rcases hq with rfl | hq
    · exact cleanup_not_mem_dir _ _ _ _ hm
    · rw [FS.mem_add] at hq
      rcases hq with rfl | hq
      · exact cleanup_not_mem_dir _ _ _ _ hm
      · rw [mem_singleton_fs] at hq
        subst hq
        exact cleanup_not_mem_upload _ _ _ _ hm

theorem outBase_ohead (r : ConvertReq) :
    ∃ l, (OUTPUTS_DIR ++ "/" ++ baseNameNoExt r.originalname ++ "-" ++ natDec r.tsOut).data
      = 'o' :: l :=
  ohead_append (ohead_append (ohead_append (ohead_append ohead_base "/") _) "-") _


set_option maxHeartbeats 1000000 in
theorem handler_jpg_spec (env : ToolEnv) (r : ConvertReq)
    (hroute : routeConversion (toLowerStr (extname r.originalname))
        (normalizeTarget r.targetFormatField) = some .pdf2jpg)
    (htgt : ¬ normalizeTarget r.targetFormatField = "") :
    BranchSpec (convertHandler env r (some (reqUploadPath r)) ⟨[(reqUploadPath r, .uploadBlob)]⟩)
      .pdf2jpg (toolOk env (toLowerStr (extname r.originalname)) .pdf2jpg) := by
  have hex : ∀ fsD : FS, fsD = FS.add ⟨[(reqUploadPath r, .uploadBlob)]⟩
        (OUTPUTS_DIR ++ "/" ++ baseNameNoExt r.originalname ++ "-" ++ natDec r.tsOut ++ "-pages")
        .dirMark →
      (fsD.add (OUTPUTS_DIR ++ "/" ++ baseNameNoExt r.originalname ++ "-" ++ natDec r.tsOut ++ "-pages")
        .dirMark).exists?
        ((OUTPUTS_DIR ++ "/" ++ baseNameNoExt r.originalname ++ "-" ++ natDec r.tsOut ++ "-pages")
          ++ "/" ++ "page-1.jpg") = false := by
    rintro fsD rfl
    rw [FS.exists?_eq_false]
    intro hm
    rw [FS.mem_add] at hm
    rcases hm with hm | hm
    · exact dir_slash_ne _ "page-1.jpg" hm
    · rw [FS.mem_add] at hm
      rcases hm with hm | hm
      · exact dir_slash_ne _ "page-1.jpg" hm
      · rw [mem_singleton_fs] at hm
        have hhead := ohead_append (ohead_append (ohead_append (outBase_ohead r) "-pages") "/")
          "page-1.jpg"
        exact up_ne_opath hhead hm.symm
  unfold BranchSpec toolOk
  unfold convertHandler
  simp only [htgt, if_false, hroute]
  cases hl : env.isLinux with
  | false =>
    cases hp : env.popplerAvail with
    | false =>
      rw [pdfToJpg_unavail]
      exact ⟨rfl, fun _ => ⟨rfl, rfl, mem_none_updir r _ _⟩, fun hcontra => by simp at hcontra⟩
    | true =>
      cases hr : env.raster with
      | false =>
        rw [pdfToJpg_noraster_poppler _ _ _ (hex _ rfl)]
        refine ⟨rfl, fun _ => ⟨rfl, rfl, mem_none_updir r _ _⟩, fun hcontra => by simp at hcontra⟩
      | true =>
        rw [pdfToJpg_produces_poppler]
        refine ⟨rfl, fun hcontra => by simp at hcontra,
          fun _ => ⟨⟨_, _, rfl⟩, mem_none_updirpage r _ _⟩⟩
  | true =>
    cases hr : env.raster with
    | false =>
      rw [pdfToJpg_noraster_linux _ _ _ _ (hex _ rfl)]
      refine ⟨rfl, fun _ => ⟨rfl, rfl, mem_none_updir r _ _⟩, fun hcontra => by simp at hcontra⟩
    | true =>
      rw [pdfToJpg_produces_linux]
      refine ⟨rfl, fun hcontra => by simp at hcontra,
        fun _ => ⟨⟨_, _, rfl⟩, mem_none_updirpage r _ _⟩⟩


theorem pdfToDocx_ok_eval (cmd : String) (i o : Path) (ts : Nat) (fs : FS) :
    pdfToDocx .okProduced cmd i o ts fs
      = (.ok (o ++ "/" ++ baseNameNoExt i ++ ".docx"),
         (fs.add o .dirMark
           |>.add (loTempDir ts) .dirMark
           |>.add (loTempDir ts ++ "/" ++ "in.pdf") (.copyOf i)
           |>.add (loTempDir ts ++ "/" ++ "in.docx") .docxFile
           |>.removeP (loTempDir ts ++ "/" ++ "in.docx")
           |>.removeP (o ++ "/" ++ baseNameNoExt i ++ ".docx")
           |>.add (o ++ "/" ++ baseNameNoExt i ++ ".docx") .docxFile
           |>.removeP (loTempDir ts)),
         [⟨cmd, ["--headless", "--infilter=writer_pdf_import", "--convert-to", "docx",
             "--outdir", loTempDir ts, loTempDir ts ++ "/" ++ "in.pdf"], some 60000⟩]) := by
  unfold pdfToDocx
  simp [FS.exists?_add_self]
  unfold FS.move
  rw [FS.lookup_add_self]

theorem pdfToDocx_noout_eval (cmd : String) (i o : Path) (ts : Nat) (fs : FS)
    (hex : (fs.add o .dirMark
        |>.add (loTempDir ts) .dirMark
        |>.add (loTempDir ts ++ "/" ++ "in.pdf") (.copyOf i)).exists?
          (loTempDir ts ++ "/" ++ "in.docx") = false) :
    pdfToDocx .okNoOutput cmd i o ts fs
      = (.error "PDF to DOCX produced no output. Is LibreOffice installed?",
         (fs.add o .dirMark
           |>.add (loTempDir ts) .dirMark
           |>.add (loTempDir ts ++ "/" ++ "in.pdf") (.copyOf i)
           |>.removeP (loTempDir ts)),
         [⟨cmd, ["--headless", "--infilter=writer_pdf_import", "--convert-to", "docx",
             "--outdir", loTempDir ts, loTempDir ts ++ "/" ++ "in.pdf"], some 60000⟩]) := by
  unfold pdfToDocx
  simp [hex]

theorem pdfToDocx_enoent_eval (cmd : String) (i o : Path) (ts : Nat) (fs : FS) :
    pdfToDocx .enoent cmd i o ts fs
      = (.error "spawn ENOENT",
         (fs.add o .dirMark
           |>.add (loTempDir ts) .dirMark
           |>.add (loTempDir ts ++ "/" ++ "in.pdf") (.copyOf i)
           |>.removeP (loTempDir ts)),
         [⟨cmd, ["--headless", "--infilter=writer_pdf_import", "--convert-to", "docx",
             "--outdir", loTempDir ts, loTempDir ts ++ "/" ++ "in.pdf"], some 60000⟩]) := rfl

theorem pdfToDocx_timeout_eval (cmd : String) (i o : Path) (ts : Nat) (fs : FS) :
    pdfToDocx .timeout cmd i o ts fs
      = (.error "ETIMEDOUT",
         (fs.add o .dirMark
           |>.add (loTempDir ts) .dirMark
           |>.add (loTempDir ts ++ "/" ++ "in.pdf") (.copyOf i)
           |>.removeP (loTempDir ts)),
         [⟨cmd, ["--headless", "--infilter=writer_pdf_import", "--convert-to", "docx",
             "--outdir", loTempDir ts, loTempDir ts ++ "/" ++ "in.pdf"], some 60000⟩]) := rfl

theorem pdfToDocx_failed_eval (cmd : String) (i o : Path) (ts : Nat) (fs : FS) :
    pdfToDocx .failed cmd i o ts fs
      = (.error "LibreOffice exited with an error",
         (fs.add o .dirMark
           |>.add (loTempDir ts) .dirMark
           |>.add (loTempDir ts ++ "/" ++ "in.pdf") (.copyOf i)
           |>.removeP (loTempDir ts)),
         [⟨cmd, ["--headless", "--infilter=writer_pdf_import", "--convert-to", "docx",
             "--outdir", loTempDir ts, loTempDir ts ++ "/" ++ "in.pdf"], some 60000⟩]) := rfl


theorem docx_err_chase (r : ConvertReq) (dirP : Path) (ts : Nat) :
    ∀ q, ¬ (cleanupArtifacts (reqUploadPath r) none (some dirP)
        ((⟨[(reqUploadPath r, .uploadBlob)]⟩ : FS).add dirP .dirMark
          |>.add (loTempDir ts) .dirMark
          |>.add (loTempDir ts ++ "/" ++ "in.pdf") (.copyOf (reqUploadPath r))
          |>.removeP (loTempDir ts))).Mem q := by
  intro q hm
  have hq0 := cleanup_mem_mono hm
  obtain ⟨hq1, hne, hund⟩ := FS.mem_removeP.mp hq0
  rw [FS.mem_add] at hq1
  rcases hq1 with rfl | hq1
  · have hpu := pathUnder_append (loTempDir ts) "in.pdf"
    rw [hpu] at hund
    exact Bool.noConfusion hund
  · rw [FS.mem_add] at hq1
    rcases hq1 with rfl | hq1
    · exact hne rfl
    · rw [FS.mem_add] at hq1
      rcases hq1 with rfl | hq1
      · exact cleanup_not_mem_dir _ _ _ _ hm
      · rw [mem_singleton_fs] at hq1
        subst hq1
        exact cleanup_not_mem_upload _ _ _ _ hm

theorem docx_ok_chase (r : ConvertReq) (dirP docxP : Path) (ts : Nat) :
    ∀ q, ¬ (cleanupArtifacts (reqUploadPath r) (some docxP) (some dirP)
        ((⟨[(reqUploadPath r, .uploadBlob)]⟩ : FS).add dirP .dirMark
          |>.add (loTempDir ts) .dirMark
          |>.add (loTempDir ts ++ "/" ++ "in.pdf") (.copyOf (reqUploadPath r))
          |>.add (loTempDir ts ++ "/" ++ "in.docx") .docxFile
          |>.removeP (loTempDir ts ++ "/" ++ "in.docx")
          |>.removeP docxP
          |>.add docxP .docxFile
          |>.removeP (loTempDir ts))).Mem q := by
  intro q hm
  have hq0 := cleanup_mem_mono hm
  obtain ⟨hq1, hneT, hundT⟩ := FS.mem_removeP.mp hq0
  rw [FS.mem_add] at hq1
  rcases hq1 with rfl | hq1
  · exact cleanup_not_mem_out _ _ _ _ hm
  · have hq2 := FS.mem_mono_removeP (FS.mem_mono_removeP hq1)
    rw [FS.mem_add] at hq2
    rcases hq2 with rfl | hq2
    · have hpu := pathUnder_append (loTempDir ts) "in.docx"
      rw [hpu] at hundT
      exact Bool.noConfusion hundT
    · rw [FS.mem_add] at hq2
      rcases hq2 with rfl | hq2
      · have hpu := pathUnder_append (loTempDir ts) "in.pdf"
        rw [hpu] at hundT
        exact Bool.noConfusion hundT
      · rw [FS.mem_add] at hq2
        rcases hq2 with rfl | hq2
        · exact hneT rfl
        · rw [FS.mem_add] at hq2
          rcases hq2 with rfl | hq2
          · exact cleanup_not_mem_dir _ _ _ _ hm
          · rw [mem_singleton_fs] at hq2
            subst hq2
            exact cleanup_not_mem_upload _ _ _ _ hm

set_option maxHeartbeats 1000000 in
theorem handler_docx_spec (env : ToolEnv) (r : ConvertReq)
    (hroute : routeConversion (toLowerStr (extname r.originalname))
        (normalizeTarget r.targetFormatField) = some .pdf2docx)
    (htgt : ¬ normalizeTarget r.targetFormatField = "") :
    BranchSpec (convertHandler env r (some (reqUploadPath r)) ⟨[(reqUploadPath r, .uploadBlob)]⟩)
      .pdf2docx (toolOk env (toLowerStr (extname r.originalname)) .pdf2docx) := by
  have hexD : ((⟨[(reqUploadPath r, .uploadBlob)]⟩ : FS).add
        (OUTPUTS_DIR ++ "/" ++ baseNameNoExt r.originalname ++ "-" ++ natDec r.tsOut ++ "-docx")
        .dirMark
      |>.add (loTempDir env.tsTemp) .dirMark
      |>.add (loTempDir env.tsTemp ++ "/" ++ "in.pdf") (.copyOf (reqUploadPath r))).exists?
        (loTempDir env.tsTemp ++ "/" ++ "in.docx") = false := by
    rw [FS.exists?_eq_false]
    intro hm
    rw [FS.mem_add] at hm
    rcases hm with hm | hm
    · exact tempDocx_ne_tempPdf env.tsTemp hm
    · rw [FS.mem_add] at hm
      rcases hm with hm | hm
      · exact dir_slash_ne (loTempDir env.tsTemp) "in.docx" hm
      · rw [FS.mem_add] at hm
        rcases hm with hm | hm
        · exact (dirDocx_ne_tempDocx r.originalname r.tsOut env.tsTemp) hm.symm
        · rw [mem_singleton_fs] at hm
          have hlo : ∃ l, (loTempDir env.tsTemp).data = 'o' :: l := by
            unfold loTempDir
            exact ohead_append (ohead_append (ohead_append ohead_base "/") "lo_") _
          exact up_ne_opath (ohead_append (ohead_append hlo "/") "in.docx") hm.symm
  unfold BranchSpec toolOk
  unfold convertHandler
  simp only [htgt, if_false, hroute]
  cases he : env.loExec with
  | okProduced =>
    rw [pdfToDocx_ok_eval]
    exact ⟨rfl, fun hcontra => by simp at hcontra,
      fun _ => ⟨⟨_, _, rfl⟩, docx_ok_chase r _ _ env.tsTemp⟩⟩
  | okNoOutput =>
    rw [pdfToDocx_noout_eval _ _ _ _ _ hexD]
    exact ⟨rfl, fun _ => ⟨rfl, rfl, docx_err_chase r _ env.tsTemp⟩,
      fun hcontra => by simp at hcontra⟩
  | enoent =>
    rw [pdfToDocx_enoent_eval]
    exact ⟨rfl, fun _ => ⟨rfl, rfl, docx_err_chase r _ env.tsTemp⟩,
      fun hcontra => by simp at hcontra⟩
  | timeout =>
    rw [pdfToDocx_timeout_eval]
    exact ⟨rfl, fun _ => ⟨rfl, rfl, docx_err_chase r _ env.tsTemp⟩,
      fun hcontra => by simp at hcontra⟩
  | failed =>
    rw [pdfToDocx_failed_eval]
    exact ⟨rfl, fun _ => ⟨rfl, rfl, docx_err_chase r _ env.tsTemp⟩,
      fun hcontra => by simp at hcontra⟩


theorem imageToPdf_png_some (jpgD : Option (Nat × Nat)) (wh : Nat × Nat) (i o : Path)
    (fs : FS) (hx : toLowerStr (extname i) = ".png") :
    imageToPdf (some wh) jpgD i o fs
      = (.ok ⟨[⟨wh.1, wh.2, [⟨⟨.png, wh.1, wh.2⟩, 0, 0, wh.1, wh.2⟩]⟩]⟩,
         fs.add o (.pdfOf ⟨[⟨wh.1, wh.2, [⟨⟨.png, wh.1, wh.2⟩, 0, 0, wh.1, wh.2⟩]⟩]⟩)) := by
  unfold imageToPdf
  simp [hx]

theorem imageToPdf_png_none (jpgD : Option (Nat × Nat)) (i o : Path) (fs : FS)
    (hx : toLowerStr (extname i) = ".png") :
    imageToPdf none jpgD i o fs = (.error "could not embed the image", fs) := by
  unfold imageToPdf
  simp [hx]

theorem imageToPdf_jpg_some (pngD : Option (Nat × Nat)) (wh : Nat × Nat) (i o : Path)
    (fs : FS) (hx : ¬ toLowerStr (extname i) = ".png") :
    imageToPdf pngD (some wh) i o fs
      = (.ok ⟨[⟨wh.1, wh.2, [⟨⟨.jpg, wh.1, wh.2⟩, 0, 0, wh.1, wh.2⟩]⟩]⟩,
         fs.add o (.pdfOf ⟨[⟨wh.1, wh.2, [⟨⟨.jpg, wh.1, wh.2⟩, 0, 0, wh.1, wh.2⟩]⟩]⟩)) := by
  unfold imageToPdf
  simp [hx]

theorem imageToPdf_jpg_none (pngD : Option (Nat × Nat)) (i o : Path) (fs : FS)
    (hx : ¬ toLowerStr (extname i) = ".png") :
    imageToPdf pngD none i o fs = (.error "could not embed the image", fs) := by
  unfold imageToPdf
  simp [hx]

theorem img_ok_chase (r : ConvertReq) (outP : Path) (c : FContent) :
    ∀ q, ¬ (cleanupArtifacts (reqUploadPath r) (some outP) none
        ((⟨[(reqUploadPath r, .uploadBlob)]⟩ : FS).add outP c)).Mem q := by
  intro q hm
  have hq := cleanup_mem_mono hm
  rw [FS.mem_add] at hq
  rcases hq with rfl | hq
  · exact cleanup_not_mem_out _ _ _ _ hm
  · rw [mem_singleton_fs] at hq
    subst hq
    exact cleanup_not_mem_upload _ _ _ _ hm

theorem img_err_chase (r : ConvertReq) (outP : Path) :
    ∀ q, ¬ (cleanupArtifacts (reqUploadPath r) (some outP) none
        (⟨[(reqUploadPath r, .uploadBlob)]⟩ : FS)).Mem q := by
  intro q hm
  have hq := cleanup_mem_mono hm
  rw [mem_singleton_fs] at hq
  subst hq
  exact cleanup_not_mem_upload _ _ _ _ hm

set_option maxHeartbeats 1000000 in
theorem handler_img_spec (env : ToolEnv) (r : ConvertReq)
    (hroute : routeConversion (toLowerStr (extname r.originalname))
        (normalizeTarget r.targetFormatField) = some .img2pdf)
    (htgt : ¬ normalizeTarget r.targetFormatField = "") :
    BranchSpec (convertHandler env r (some (reqUploadPath r)) ⟨[(reqUploadPath r, .uploadBlob)]⟩)
      .img2pdf (toolOk env (toLowerStr (extname r.originalname)) .img2pdf) := by
  have hc := route_img_elim hroute
  rw [Bool.and_eq_true] at hc
  have hextU : toLowerStr (extname (reqUploadPath r)) = toLowerStr (extname r.originalname) := by
    unfold reqUploadPath
    rw [extname_uploadStoredPath r.tsUpload (ext_ne_nil_of_img hc.1)]
  unfold BranchSpec toolOk
  unfold convertHandler
  simp only [htgt, if_false, hroute]
  by_cases hpng : toLowerStr (extname r.originalname) = ".png"
  · rw [show (toLowerStr (extname r.originalname) == ".png") = true from beq_iff_eq.mpr hpng]
    cases hp : env.png with
    | some wh =>
      rw [imageToPdf_png_some _ _ _ _ _ (hextU.trans hpng)]
      exact ⟨rfl, fun hcontra => by simp at hcontra,
        fun _ => ⟨⟨_, _, rfl⟩, img_ok_chase r _ _⟩⟩
    | none =>
      rw [imageToPdf_png_none _ _ _ _ (hextU.trans hpng)]
      exact ⟨rfl, fun _ => ⟨rfl, rfl, img_err_chase r _⟩,
        fun hcontra => by simp at hcontra⟩
  · rw [show (toLowerStr (extname r.originalname) == ".png") = false from
      beq_eq_false_iff_ne.mpr hpng]
    have hxu : ¬ toLowerStr (extname (reqUploadPath r)) = ".png" := by
      rw [hextU]
      exact hpng
    cases hj : env.jpg with
    | some wh =>
      rw [imageToPdf_jpg_some _ _ _ _ _ hxu]
      exact ⟨rfl, fun hcontra => by simp at hcontra,
        fun _ => ⟨⟨_, _, rfl⟩, img_ok_chase r _ _⟩⟩
    | none =>
      rw [imageToPdf_jpg_none _ _ _ _ hxu]
      exact ⟨rfl, fun _ => ⟨rfl, rfl, img_err_chase r _⟩,
        fun hcontra => by simp at hcontra⟩


/-! ## The full pipeline, by cases -/

theorem pipeline_stored (env : ToolEnv) (r : ConvertReq)
    (h1 : r.hasFile = true) (h2 : allowedMimes.contains r.mimetype = true)
    (h3 : ¬ MAX_FILE_SIZE < r.size) :
    convertPipeline env r .empty
      = convertHandler env r (some (reqUploadPath r)) ⟨[(reqUploadPath r, .uploadBlob)]⟩ := by
  have h2m : r.mimetype ∈ allowedMimes := by simpa using h2
  unfold convertPipeline multerStage reqUploadPath
  simp [h1, h2m, h3, FS.empty, FS.add]

theorem pipeline_nofile (env : ToolEnv) (r : ConvertReq) (h1 : r.hasFile = false) :
    convertPipeline env r .empty = (.json 400 "No file uploaded.", .empty, []) := by
  unfold convertPipeline multerStage
  simp [h1]
  rfl

theorem pipeline_badmime (env : ToolEnv) (r : ConvertReq) (h1 : r.hasFile = true)
    (h2 : allowedMimes.contains r.mimetype = false) :
    convertPipeline env r .empty = (.htmlError 500, .empty, []) := by
  have h2m : r.mimetype ∉ allowedMimes := by simpa using h2
  unfold convertPipeline multerStage
  simp [h1, h2m]
  rfl

theorem pipeline_oversize (env : ToolEnv) (r : ConvertReq) (h1 : r.hasFile = true)
    (h2 : allowedMimes.contains r.mimetype = true) (h3 : MAX_FILE_SIZE < r.size) :
    convertPipeline env r .empty = (.htmlError 500, .empty, []) := by
  have h2m : r.mimetype ∈ allowedMimes := by simpa using h2
  unfold convertPipeline multerStage
  simp [h1, h2m, h3]
  rfl

theorem pipeline_notarget (env : ToolEnv) (r : ConvertReq)
    (h1 : r.hasFile = true) (h2 : allowedMimes.contains r.mimetype = true)
    (h3 : ¬ MAX_FILE_SIZE < r.size)
    (htgt : normalizeTarget r.targetFormatField = "") :
    convertPipeline env r .empty
      = (.json 400 "targetFormat is required (pdf, jpg, or docx).",
         ⟨[(reqUploadPath r, .uploadBlob)]⟩, []) := by
  rw [pipeline_stored env r h1 h2 h3]
  unfold convertHandler
  simp [htgt]

theorem pipeline_badroute (env : ToolEnv) (r : ConvertReq)
    (h1 : r.hasFile = true) (h2 : allowedMimes.contains r.mimetype = true)
    (h3 : ¬ MAX_FILE_SIZE < r.size)
    (htgt : ¬ normalizeTarget r.targetFormatField = "")
    (hroute : routeConversion (toLowerStr (extname r.originalname))
        (normalizeTarget r.targetFormatField) = none) :
    convertPipeline env r .empty
      = (.json 400 ("Unsupported conversion: " ++ toLowerStr (extname r.originalname)
            ++ " -> " ++ normalizeTarget r.targetFormatField
            ++ ". Supported: DOCX/PPTX/XLSX to PDF, PDF to JPG/DOCX, JPG/PNG to PDF."),
         ⟨[(reqUploadPath r, .uploadBlob)]⟩, []) := by
  rw [pipeline_stored env r h1 h2 h3]
  unfold convertHandler
  simp only [htgt, if_false, hroute]

theorem pipeline_dispatch (env : ToolEnv) (r : ConvertReq) (op : OpName)
    (h1 : r.hasFile = true) (h2 : allowedMimes.contains r.mimetype = true)
    (h3 : ¬ MAX_FILE_SIZE < r.size)
    (htgt : ¬ normalizeTarget r.targetFormatField = "")
    (hroute : routeConversion (toLowerStr (extname r.originalname))
        (normalizeTarget r.targetFormatField) = some op) :
    BranchSpec (convertPipeline env r .empty) op
      (toolOk env (toLowerStr (extname r.originalname)) op) := by
  rw [pipeline_stored env r h1 h2 h3]
  cases op with
  | office => exact handler_office_spec env r hroute htgt
  | pdf2jpg => exact handler_jpg_spec env r hroute htgt
  | pdf2docx => exact handler_docx_spec env r hroute htgt
  | img2pdf => exact handler_img_spec env r hroute htgt


theorem route_iff_compat (ext tgt : String) :
    (routeConversion ext tgt).isSome = true ↔ (ext, tgt) ∈ compatTable := by
  constructor
  · intro h
    unfold routeConversion at h
    split at h
    next hc =>
      rw [Bool.and_eq_true] at hc
      have hm : ext = ".docx" ∨ ext = ".pptx" ∨ ext = ".xlsx" := by
        have hm0 : ext ∈ [".docx", ".pptx", ".xlsx"] := by simpa using hc.1
        simpa using hm0
      have ht : tgt = "pdf" := by simpa using hc.2
      subst ht
      rcases hm with rfl | rfl | rfl <;> decide
    next =>
      split at h
      next hc =>
        rw [Bool.and_eq_true] at hc
        have he : ext = ".pdf" := by simpa using hc.1
        have ht : tgt = "jpg" := by simpa using hc.2
        subst he
        subst ht
        decide
      next =>
        split at h
        next hc =>
          rw [Bool.and_eq_true] at hc
          have he : ext = ".pdf" := by simpa using hc.1
          have ht : tgt = "docx" := by simpa using hc.2
          subst he
          subst ht
          decide
        next =>
          split at h
          next hc =>
            rw [Bool.and_eq_true] at hc
            have hm : ext = ".jpg" ∨ ext = ".jpeg" ∨ ext = ".png" := by
              have hm0 : ext ∈ [".jpg", ".jpeg", ".png"] := by simpa using hc.1
              simpa using hm0
            have ht : tgt = "pdf" := by simpa using hc.2
            subst ht
            rcases hm with rfl | rfl | rfl <;> decide
          next =>
            simp at h
  · intro h
    have hall : ∀ p ∈ compatTable, (routeConversion p.1 p.2).isSome = true := by decide
    exact hall (ext, tgt) h


/-! ## Claims C1, C2, C3 -/

/-- Claim C1 counterexample: a request that stores its upload and then fails
the `targetFormat` validation (HTTP 400) returns without any cleanup — the
stored upload `uploads/a-5.pdf` is still present in the final filesystem, so
the uploads scratch area retains an artifact of the failed request. -/
theorem C1_counterexample :
    convertPipeline ⟨true, true, true, true, .okProduced, "libreoffice", 7, some (1, 1), some (1, 1)⟩
        ⟨0, true, "a.pdf", "application/pdf", 100, some "", 5, 6⟩ FS.empty
      = (.json 400 "targetFormat is required (pdf, jpg, or docx).",
         ⟨[("uploads/a-5.pdf", .uploadBlob)]⟩, [])
    ∧ ("uploads/a-5.pdf" : Path)
        = reqUploadPath ⟨0, true, "a.pdf", "application/pdf", 100, some "", 5, 6⟩ :=
  ⟨rfl, rfl⟩

/-- Claim C1 (amended): cleanup of the request's artifacts holds on the
conversion-tool failure paths and on success (the final filesystem is empty),
and trivially before any file is stored; but the two post-storage validation
failures — missing/empty `targetFormat` and unsupported pair — return HTTP 400
with the stored upload left behind: their `return` statements skip cleanup. -/
theorem C1_cleanup_except_early_400 (env : ToolEnv) (r : ConvertReq) :
    (r.hasFile = false → (convertPipeline env r FS.empty).2.1 = FS.empty)
    ∧ (r.hasFile = true → allowedMimes.contains r.mimetype = true →
        ¬ MAX_FILE_SIZE < r.size → normalizeTarget r.targetFormatField = "" →
        (convertPipeline env r FS.empty).1.statusCode = 400
          ∧ (convertPipeline env r FS.empty).2.1.Mem (reqUploadPath r))
    ∧ (r.hasFile = true → allowedMimes.contains r.mimetype = true →
        ¬ MAX_FILE_SIZE < r.size → ¬ normalizeTarget r.targetFormatField = "" →
        routeConversion (toLowerStr (extname r.originalname))
            (normalizeTarget r.targetFormatField) = none →
        (convertPipeline env r FS.empty).1.statusCode = 400
          ∧ (convertPipeline env r FS.empty).2.1.Mem (reqUploadPath r))
    ∧ (∀ op, r.hasFile = true → allowedMimes.contains r.mimetype = true →
        ¬ MAX_FILE_SIZE < r.size → ¬ normalizeTarget r.targetFormatField = "" →
        routeConversion (toLowerStr (extname r.originalname))
            (normalizeTarget r.targetFormatField) = some op →
        ∀ q, ¬ (convertPipeline env r FS.empty).2.1.Mem q) := by
  refine ⟨?_, ?_, ?_, ?_⟩
  · intro h1
    rw [pipeline_nofile env r h1]
  · intro h1 h2 h3 htgt
    rw [pipeline_notarget env r h1 h2 h3 htgt]
    exact ⟨rfl, FContent.uploadBlob, by simp⟩
  · intro h1 h2 h3 htgt hroute
    rw [pipeline_badroute env r h1 h2 h3 htgt hroute]
    exact ⟨rfl, FContent.uploadBlob, by simp⟩
  · intro op h1 h2 h3 htgt hroute q
    have hb := pipeline_dispatch env r op h1 h2 h3 htgt hroute
    unfold BranchSpec at hb
    cases hok : toolOk env (toLowerStr (extname r.originalname)) op
    · exact (hb.2.1 hok).2.2 q
    · exact (hb.2.2 hok).2 q

/-- Claim C2 counterexample: a disallowed MIME type (`text/plain`) is a client
validation error, yet the response is Express's default error page — HTTP 500
with an HTML body, not the claimed HTTP 400 JSON body — because server.js
registers no error-handling middleware to catch multer's rejection. -/
theorem C2_counterexample :
    convertPipeline ⟨true, true, true, true, .okProduced, "libreoffice", 7, some (1, 1), some (1, 1)⟩
        ⟨0, true, "a.txt", "text/plain", 100, some "pdf", 5, 6⟩ FS.empty
      = (.htmlError 500, FS.empty, [])
    ∧ allowedMimes.contains "text/plain" = false
    ∧ (Response.htmlError 500).statusCode = 500
    ∧ (Response.htmlError 500).isJsonError = false :=
  ⟨rfl, by decide, rfl, rfl⟩

/-- Claim C2 (amended): response statuses by failure class. The handler's own
validations (missing file, missing `targetFormat`, unsupported pair) do
respond 400 with a JSON error body, and a failing conversion operation
responds 500 with a JSON error body; but the multer-stage validation errors —
disallowed MIME type and oversize file — bypass the handler and yield
Express's default HTTP 500 HTML error page instead of a 400 JSON body. A
successful conversion responds with a file download. -/
theorem C2_status_by_failure_class (env : ToolEnv) (r : ConvertReq) :
    (r.hasFile = false →
        (convertPipeline env r FS.empty).1 = .json 400 "No file uploaded.")
    ∧ (r.hasFile = true → allowedMimes.contains r.mimetype = false →
        (convertPipeline env r FS.empty).1 = .htmlError 500)
    ∧ (r.hasFile = true → allowedMimes.contains r.mimetype = true →
        MAX_FILE_SIZE < r.size →
        (convertPipeline env r FS.empty).1 = .htmlError 500)
    ∧ (r.hasFile = true → allowedMimes.contains r.mimetype = true →
        ¬ MAX_FILE_SIZE < r.size → normalizeTarget r.targetFormatField = "" →
        (convertPipeline env r FS.empty).1
          = .json 400 "targetFormat is required (pdf, jpg, or docx).")
    ∧ (r.hasFile = true → allowedMimes.contains r.mimetype = true →
        ¬ MAX_FILE_SIZE < r.size → ¬ normalizeTarget r.targetFormatField = "" →
        routeConversion (toLowerStr (extname r.originalname))
            (normalizeTarget r.targetFormatField) = none →
        (convertPipeline env r FS.empty).1.statusCode = 400
          ∧ (convertPipeline env r FS.empty).1.isJsonError = true)
    ∧ (∀ op, r.hasFile = true → allowedMimes.contains r.mimetype = true →
        ¬ MAX_FILE_SIZE < r.size → ¬ normalizeTarget r.targetFormatField = "" →
        routeConversion (toLowerStr (extname r.originalname))
            (normalizeTarget r.targetFormatField) = some op →
        toolOk env (toLowerStr (extname r.originalname)) op = false →
        (convertPipeline env r FS.empty).1.statusCode = 500
          ∧ (convertPipeline env r FS.empty).1.isJsonError = true)
    ∧ (∀ op, r.hasFile = true → allowedMimes.contains r.mimetype = true →
        ¬ MAX_FILE_SIZE < r.size → ¬ normalizeTarget r.targetFormatField = "" →
        routeConversion (toLowerStr (extname r.originalname))
            (normalizeTarget r.targetFormatField) = some op →
        toolOk env (toLowerStr (extname r.originalname)) op = true →
        ∃ pth f, (convertPipeline env r FS.empty).1 = .download pth f) := by
  refine ⟨?_, ?_, ?_, ?_, ?_, ?_, ?_⟩
  · intro h1
    rw [pipeline_nofile env r h1]
  · intro h1 h2
    rw [pipeline_badmime env r h1 h2]
  · intro h1 h2 h3
    rw [pipeline_oversize env r h1 h2 h3]
  · intro h1 h2 h3 htgt
    rw [pipeline_notarget env r h1 h2 h3 htgt]
  · intro h1 h2 h3 htgt hroute
    rw [pipeline_badroute env r h1 h2 h3 htgt hroute]
    exact ⟨rfl, rfl⟩
  · intro op h1 h2 h3 htgt hroute hok
    have hb := pipeline_dispatch env r op h1 h2 h3 htgt hroute
    unfold BranchSpec at hb
    exact ⟨(hb.2.1 hok).1, (hb.2.1 hok).2.1⟩
  · intro op h1 h2 h3 htgt hroute hok
    have hb := pipeline_dispatch env r op h1 h2 h3 htgt hroute
    unfold BranchSpec at hb
    exact (hb.2.2 hok).1

/-- Claim C3: the router dispatches exactly on the Compatibility Table — for
every (lower-cased extension, normalized target) pair, `routeConversion`
yields an operation iff the pair is in the table
{docx,pptx,xlsx}→pdf, pdf→jpg, pdf→docx, {jpg,jpeg,png}→pdf; a dispatched
request invokes exactly that one operation, and a pair outside the table is
rejected with HTTP 400 with no conversion operation invoked. -/
theorem C3_router_compat_table (env : ToolEnv) (r : ConvertReq) :
    (∀ ext tgt, (routeConversion ext tgt).isSome = true ↔ (ext, tgt) ∈ compatTable)
    ∧ (∀ op, r.hasFile = true → allowedMimes.contains r.mimetype = true →
        ¬ MAX_FILE_SIZE < r.size → ¬ normalizeTarget r.targetFormatField = "" →
        routeConversion (toLowerStr (extname r.originalname))
            (normalizeTarget r.targetFormatField) = some op →
        (convertPipeline env r FS.empty).2.2 = [op])
    ∧ (r.hasFile = true → allowedMimes.contains r.mimetype = true →
        ¬ MAX_FILE_SIZE < r.size → ¬ normalizeTarget r.targetFormatField = "" →
        routeConversion (toLowerStr (extname r.originalname))
            (normalizeTarget r.targetFormatField) = none →
        (convertPipeline env r FS.empty).1.statusCode = 400
          ∧ (convertPipeline env r FS.empty).2.2 = []) := by
  refine ⟨route_iff_compat, ?_, ?_⟩
  · intro op h1 h2 h3 htgt hroute
    exact (pipeline_dispatch env r op h1 h2 h3 htgt hroute).1
  · intro h1 h2 h3 htgt hroute
    rw [pipeline_badroute env r h1 h2 h3 htgt hroute]
    exact ⟨rfl, rfl⟩

end AnyToAny
